import Mathlib

/-!
# Verification of the snapigo coupon-field extraction engine

A shallow embedding of the deterministic text/layout heuristics of the
repository (src/lib/geo.ts, src/lib/coupon-parse.ts, src/unnamed/part_002
alias lib/ocr.ts) together with theorems settling the frozen claims about
them.

Modelling conventions:
* JavaScript strings are modelled as `List Char` internally; the public
  entry points take `String` and work on `String.data`.  All inputs of
  interest are Unicode text whose case conversion the code only applies to
  ASCII-relevant characters, so `toLowerCase`/`toUpperCase` are modelled on
  the ASCII range.
* JavaScript numbers (IEEE doubles) are modelled as exact rationals `ℚ`
  (scores) and as exact cent counts `ℕ` (money amounts).  Every constant
  appearing in the code (0.4, 0.8, 2.5, ...) is an exact decimal and every
  claim proved here is robust to double rounding (the separations involved
  are hundreds of units wide, or purely structural).
* Regular expressions are translated into explicit scanners that reproduce
  the leftmost-match, greedy-with-backtracking, ordered-alternation
  semantics of JavaScript `RegExp` for the concrete patterns in the source.
* The module-level `PHONE_RE` carries the `g` flag, hence a mutable
  `lastIndex`: `RegExp.prototype.test` advances it and
  `String.prototype.matchAll` starts from a copy of it.  This state is made
  explicit as a `Nat` parameter threaded through the functions that touch
  `PHONE_RE`.
* The external geocoder (`Location.geocodeAsync`) is an oracle parameter
  `String → Option (List GeoPoint)`; `none` models a thrown rejection and
  `some []` a successful lookup with zero results.
-/

namespace Snapigo

/-! ## Character classes and elementary string operations -/

/-- ASCII decimal digit, the class `\d` of JavaScript regexes. -/
def isDigit (c : Char) : Bool := '0' ≤ c && c ≤ '9'

/-- ASCII letter. -/
def isAsciiAlpha (c : Char) : Bool :=
  ('a' ≤ c && c ≤ 'z') || ('A' ≤ c && c ≤ 'Z')

/-- JavaScript word character, the class `\w`: `[A-Za-z0-9_]`. -/
def isWordChar (c : Char) : Bool := isAsciiAlpha c || isDigit c || c = '_'

/-- JavaScript whitespace, the class `\s`, restricted to the characters that
can occur in OCR text: space, tab, LF, VT, FF, CR, NBSP. -/
def isJsWs (c : Char) : Bool :=
  c = ' ' || c = '\t' || c = '\n' || c = Char.ofNat 11 ||
  c = Char.ofNat 12 || c = '\r' || c = Char.ofNat 0xA0

/-- ASCII lower-casing of one character (`String.prototype.toLowerCase`). -/
def lowerChar (c : Char) : Char :=
  if 'A' ≤ c && c ≤ 'Z' then Char.ofNat (c.toNat + 32) else c

/-- ASCII upper-casing of one character (`String.prototype.toUpperCase`). -/
def upperChar (c : Char) : Char :=
  if 'a' ≤ c && c ≤ 'z' then Char.ofNat (c.toNat - 32) else c

def lowerL (s : List Char) : List Char := s.map lowerChar

def upperL (s : List Char) : List Char := s.map upperChar

/-- `String.prototype.trim`, dropping JavaScript whitespace at both ends. -/
def jsTrimL (s : List Char) : List Char :=
  ((s.dropWhile isJsWs).reverse.dropWhile isJsWs).reverse

def jsTrim (s : String) : String := ⟨jsTrimL s.data⟩

/-- Substring test (`String.prototype.includes`). -/
def containsL (hay needle : List Char) : Bool :=
  match hay with
  | [] => needle.isEmpty
  | _ :: t => needle.isPrefixOf hay || containsL t needle

/-- Case-insensitive substring test. -/
def containsCI (hay needle : List Char) : Bool :=
  containsL (lowerL hay) (lowerL needle)

/-- `String.prototype.startsWith`. -/
def startsWithL (s pre : List Char) : Bool := pre.isPrefixOf s

/-- Count of digit characters in a string (`(s.match(/\d/g) || []).length`). -/
def digitCount (s : String) : Nat := (s.data.filter isDigit).length

theorem length_dropWhile_le' (p : Char → Bool) (l : List Char) :
    (l.dropWhile p).length ≤ l.length := by
  induction l with
  | nil => simp
  | cons c r ih =>
    by_cases h : p c
    · simp only [List.dropWhile, h]
      exact Nat.le_succ_of_le ih
    · simp [List.dropWhile, h]

/-- Collapse every run of JavaScript whitespace to a single space:
`replace(/\s+/g, ' ')`.  Fuel-based so that the kernel can evaluate it
(each step consumes at least one character). -/
def collapseWsGo : Nat → List Char → List Char
  | 0, l => l
  | _ + 1, [] => []
  | fuel + 1, c :: r =>
    if isJsWs c then ' ' :: collapseWsGo fuel (r.dropWhile isJsWs)
    else c :: collapseWsGo fuel r

def collapseWsL (s : List Char) : List Char := collapseWsGo (s.length + 1) s

/-- Split on runs of a separator class, the semantics of
`String.prototype.split(/sep+/)`: `"a\n\nb" ↦ ["a","b"]`,
`"\na" ↦ ["","a"]`, `"" ↦ [""]`. -/
def splitRunsGo (p : Char → Bool) : Nat → List Char → List Char → List (List Char)
  | 0, acc, _ => [acc.reverse]
  | _ + 1, acc, [] => [acc.reverse]
  | fuel + 1, acc, c :: r =>
    if p c then acc.reverse :: splitRunsGo p fuel [] (r.dropWhile p)
    else splitRunsGo p fuel (c :: acc) r

def splitRunsL (p : Char → Bool) (s : List Char) : List (List Char) :=
  splitRunsGo p (s.length + 1) [] s

/-- Split on every single occurrence of a character of the class `p`
(`String.prototype.split(/[\/\-]/)` style): no run merging. -/
def splitEachL (p : Char → Bool) : List Char → List (List Char) :=
  go []
where
  go (acc : List Char) (l : List Char) : List (List Char) :=
    match l with
    | [] => [acc.reverse]
    | c :: r => if p c then acc.reverse :: go [] r else go (c :: acc) r

/-! ## Stable descending sort

`Array.prototype.sort` is stable (ECMA-262); the comparators in the source,
`(a, b) => key(b) - key(a)`, therefore sort descending by key with ties kept
in original order.  We model this with insertion sort that inserts an
earlier element before any equal-key later element. -/

section StableSort

variable {α : Type} {β : Type} [LinearOrder β] (key : α → β)

/-- Insert `x` (an element originally to the LEFT of everything in the list)
into a list sorted descending by `key`, keeping `x` before equal keys. -/
def insDesc (x : α) : List α → List α
  | [] => [x]
  | y :: ys => if key y ≤ key x then x :: y :: ys else y :: insDesc x ys

/-- Stable descending sort by `key`, modelling
`arr.sort((a, b) => key(b) - key(a))`. -/
def sortDesc : List α → List α
  | [] => []
  | x :: xs => insDesc key x (sortDesc xs)

theorem insDesc_head_cons (x y : α) (ys : List α) :
    (insDesc key x (y :: ys)).head? =
      some (if key y ≤ key x then x else y) := by
  simp only [insDesc]; split <;> simp

theorem sortDesc_eq_nil_iff (l : List α) : sortDesc key l = [] ↔ l = [] := by
  cases l with
  | nil => simp [sortDesc]
  | cons x xs =>
    simp only [sortDesc]
    constructor
    · intro h
      cases hc : sortDesc key xs with
      | nil => rw [hc] at h; simp [insDesc] at h
      | cons y ys =>
        rw [hc] at h
        simp only [insDesc] at h
        revert h; split <;> simp
    · intro h; exact absurd h (by simp)

/-- The head of the stable descending sort is the first element of the
original list attaining the maximal key: it is `l.get i`, every key is
`≤` its key, and every element strictly before position `i` has a strictly
smaller key. -/
theorem sortDesc_head (l : List α) (h : l ≠ []) :
    ∃ i, ∃ hi : i < l.length, (sortDesc key l).head? = some (l.get ⟨i, hi⟩) ∧
      (∀ j, ∀ hj : j < l.length, key (l.get ⟨j, hj⟩) ≤ key (l.get ⟨i, hi⟩)) ∧
      (∀ j, ∀ hj : j < l.length, j < i →
        key (l.get ⟨j, hj⟩) < key (l.get ⟨i, hi⟩)) := by
  induction l with
  | nil => exact absurd rfl h
  | cons x xs ih =>
    cases hxs : xs with
    | nil =>
      refine ⟨0, by simp, ?_, ?_, ?_⟩
      · simp [sortDesc, insDesc]
      · intro j hj
        subst hxs
        have hj0 : j = 0 := by simp at hj; omega
        subst hj0
        exact le_refl _
      · intro j hj hj0; omega
    | cons y ys =>
      subst hxs
      obtain ⟨i, hi, hhead, hmax, hstrict⟩ := ih (by simp)
      obtain ⟨h0, t0, ht0⟩ : ∃ h0 t0, sortDesc key (y :: ys) = h0 :: t0 := by
        cases hc : sortDesc key (y :: ys) with
        | nil =>
          exact absurd ((sortDesc_eq_nil_iff key _).mp hc) (by simp)
        | cons a b => exact ⟨a, b, rfl⟩
      have hh0 : h0 = (y :: ys).get ⟨i, hi⟩ := by
        have h' := hhead
        rw [ht0] at h'
        exact Option.some.inj h'
      have hsx : sortDesc key (x :: y :: ys) = insDesc key x (h0 :: t0) := by
        simp only [sortDesc] at ht0 ⊢
        rw [ht0]
      by_cases hxy : key h0 ≤ key x
      · refine ⟨0, by simp, ?_, ?_, ?_⟩
        · rw [hsx, insDesc_head_cons, if_pos hxy]
          rfl
        · intro j hj
          cases j with
          | zero => exact le_refl _
          | succ k =>
            have hk : k < (y :: ys).length := by simp at hj ⊢; omega
            have hget : (x :: y :: ys).get ⟨k + 1, hj⟩ = (y :: ys).get ⟨k, hk⟩ := rfl
            rw [hget]
            calc key ((y :: ys).get ⟨k, hk⟩)
                ≤ key ((y :: ys).get ⟨i, hi⟩) := hmax k hk
              _ = key h0 := by rw [hh0]
              _ ≤ key x := hxy
        · intro j hj hj0; omega
      · push_neg at hxy
        have hi' : i + 1 < (x :: y :: ys).length := by simp at hi ⊢; omega
        have hget1 : (x :: y :: ys).get ⟨i + 1, hi'⟩ = (y :: ys).get ⟨i, hi⟩ := rfl
        refine ⟨i + 1, hi', ?_, ?_, ?_⟩
        · rw [hsx, insDesc_head_cons, if_neg (not_le.mpr hxy), hget1, hh0]

        · intro j hj
          cases j with
          | zero =>
            rw [hget1]
            show key ((x :: y :: ys).get ⟨0, hj⟩) ≤ _
            rw [← hh0]
            exact le_of_lt hxy
          | succ k =>
            have hk : k < (y :: ys).length := by simp at hj ⊢; omega
            have hget : (x :: y :: ys).get ⟨k + 1, hj⟩ = (y :: ys).get ⟨k, hk⟩ := rfl
            rw [hget, hget1]
            exact hmax k hk
        · intro j hj hj0
          cases j with
          | zero =>
            rw [hget1]
            show key ((x :: y :: ys).get ⟨0, hj⟩) < _
            rw [← hh0]
            exact hxy
          | succ k =>
            have hk : k < (y :: ys).length := by simp at hj ⊢; omega
            have hget : (x :: y :: ys).get ⟨k + 1, hj⟩ = (y :: ys).get ⟨k, hk⟩ := rfl
            rw [hget, hget1]
            exact hstrict k hk (by omega)

/-- Membership form: the head of the sort is a member with maximal key. -/
theorem sortDesc_head_mem (l : List α) (x : α)
    (h : (sortDesc key l).head? = some x) :
    x ∈ l ∧ ∀ y ∈ l, key y ≤ key x := by
  have hne : l ≠ [] := by
    intro hnil; subst hnil; simp [sortDesc] at h
  obtain ⟨i, hi, hhead, hmax, _⟩ := sortDesc_head key l hne
  have hx : x = l.get ⟨i, hi⟩ := by
    rw [h] at hhead
    exact Option.some.inj hhead
  subst hx
  refine ⟨l.get_mem _ _, ?_⟩
  intro y hy
  obtain ⟨⟨j, hj⟩, hget⟩ := List.mem_iff_get.mp hy
  rw [← hget]
  exact hmax j hj

end StableSort

/-- Stable ascending sort by key (for `(a, b) => key(a) - key(b)`),
inserting an earlier element before equal keys. -/
def insAsc {α β : Type} [LinearOrder β] (key : α → β) (x : α) :
    List α → List α
  | [] => [x]
  | y :: ys => if key x ≤ key y then x :: y :: ys else y :: insAsc key x ys

def sortAsc {α β : Type} [LinearOrder β] (key : α → β) : List α → List α
  | [] => []
  | x :: xs => insAsc key x (sortAsc key xs)


/-! ## The phone pattern

```
const PHONE_SEP = String.raw`[\s.\-•·]`;
const PHONE_RE = new RegExp(
  String.raw`(?:\+?1${PHONE_SEP}*)?(?:\(?\d{3}\)?${PHONE_SEP}*)?\d{3}${PHONE_SEP}\d{4}`,
  'g'
);
```

The scanner below reproduces leftmost matching with ordered alternatives:
optional groups are tried present-first (greedy), the separator star is
tried longest-first, and the first combination that lets the whole pattern
succeed determines the match.  Since `PHONE_RE` has the `g` flag, its
`lastIndex` is mutable module state; functions below take it explicitly. -/

/-- The `PHONE_SEP` class `[\s.\-•·]`. -/
def sepChar (c : Char) : Bool :=
  isJsWs c || c = '.' || c = '-' || c = '•' || c = '·'

/-- First `f`-success over an ordered list of alternatives. -/
def firstSome {α β : Type} : List α → (α → Option β) → Option β
  | [], _ => none
  | x :: xs, f =>
    match f x with
    | some b => some b
    | none => firstSome xs f

/-- Consume exactly `n` digits. -/
def takeDigitsExact : Nat → List Char → Option (List Char)
  | 0, s => some s
  | _ + 1, [] => none
  | n + 1, c :: r => if isDigit c then takeDigitsExact n r else none

/-- Alternatives for an optional literal character, greedy (present first). -/
def optCharAlts (ch : Char) (s : List Char) : List (List Char) :=
  match s with
  | c :: r => if c = ch then [r, s] else [s]
  | [] => [s]

/-- Alternatives for `sep*`, longest first. -/
def starSepAlts (s : List Char) : List (List Char) :=
  let n := (s.takeWhile sepChar).length
  ((List.range (n + 1)).reverse).map (fun k => s.drop k)

/-- `\+?1${PHONE_SEP}*` alternatives (group present), in preference order. -/
def phonePartA (s : List Char) : List (List Char) :=
  ((optCharAlts '+' s).map (fun p =>
    match p with
    | '1' :: r => starSepAlts r
    | _ => [])).flatten

/-- `\(?\d{3}\)?${PHONE_SEP}*` alternatives (group present). -/
def phonePartB (s : List Char) : List (List Char) :=
  ((optCharAlts '(' s).map (fun p =>
    match takeDigitsExact 3 p with
    | none => []
    | some r => ((optCharAlts ')' r).map starSepAlts).flatten)).flatten

/-- The mandatory tail `\d{3}${PHONE_SEP}\d{4}`. -/
def phoneTail (s : List Char) : Option (List Char) :=
  match takeDigitsExact 3 s with
  | none => none
  | some r =>
    match r with
    | c :: r2 => if sepChar c then takeDigitsExact 4 r2 else none
    | [] => none

/-- Match `PHONE_RE` anchored at the start of `s`; returns the number of
characters consumed by the (greedy, first-success) match. -/
def phoneMatchAt (s : List Char) : Option Nat :=
  firstSome (phonePartA s ++ [s]) (fun a =>
    firstSome (phonePartB a ++ [a]) (fun b =>
      (phoneTail b).map (fun rest => s.length - rest.length)))

/-- All matches of `PHONE_RE` in `s`, scanning left to right and resuming
after each match (`RegExp` global-exec semantics). -/
def phoneScan : Nat → List Char → List String
  | 0, _ => []
  | _ + 1, [] => []
  | fuel + 1, c :: r =>
    match phoneMatchAt (c :: r) with
    | some len => ⟨(c :: r).take len⟩ :: phoneScan fuel ((c :: r).drop len)
    | none => phoneScan fuel r

/-- `[...text.matchAll(PHONE_RE)].map(m => m[0])`.  `matchAll` copies the
regex and its current `lastIndex` `li`, so matching starts at index `li`. -/
def phoneMatchesFrom (li : Nat) (s : String) : List String :=
  phoneScan (s.data.length + 1) (s.data.drop li)

/-- Leftmost match of `PHONE_RE` at a position `≥ pos`. -/
def phoneSearch : Nat → Nat → List Char → Option (Nat × Nat)
  | 0, _, _ => none
  | _ + 1, _, [] => none
  | fuel + 1, pos, c :: r =>
    match phoneMatchAt (c :: r) with
    | some len => some (pos, len)
    | none => phoneSearch fuel (pos + 1) r

/-- `PHONE_RE.test(s)` with current `lastIndex = li`: returns the result and
the updated `lastIndex` (end of match on success, `0` on failure). -/
def phoneTest (li : Nat) (s : String) : Bool × Nat :=
  match phoneSearch (s.data.length + 1) li (s.data.drop li) with
  | some (pos, len) => (true, pos + len)
  | none => (false, 0)

/-- Stable sort of the match list by digit count, descending — the
observable behaviour of `matches.sort((a, b) => digits(b) - digits(a))`
(ECMA-262 `Array.prototype.sort` is stable). -/
def sortByDigitsDesc (l : List String) : List String :=
  sortDesc digitCount l

/-- The phone pick shared by both extractors: most digits wins, ties keep
text order; `none` when there is no match. -/
def pickPhone (li : Nat) (s : String) : Option String :=
  (sortByDigitsDesc (phoneMatchesFrom li s)).head?

/-! ## Percent and money-amount extraction (`pickBestPercent`,
`pickBestAmount`, `deriveTitle`), identical in src/lib/geo.ts,
src/lib/coupon-parse.ts and lib/ocr.ts (src/unnamed/part_002). -/

/-- Numeric value of a digit string. -/
def digitsVal (l : List Char) : Nat :=
  l.foldl (fun n c => n * 10 + (c.toNat - '0'.toNat)) 0

/-- Match `(\d{1,3})\s*%` at the start of `s`: greedy digit count (3, then
2, then 1), then a maximal whitespace run, then `%`.  Returns the captured
value and the consumed length. -/
def percentAt (s : List Char) : Option (Nat × Nat) :=
  firstSome [3, 2, 1] (fun k =>
    match takeDigitsExact k s with
    | none => none
    | some r =>
      let ws := (r.takeWhile isJsWs).length
      match r.drop ws with
      | '%' :: _ => some (digitsVal (s.take k), k + ws + 1)
      | _ => none)

/-- All captured values of `/(\d{1,3})\s*%/g` in text order. -/
def percentScan : Nat → List Char → List Nat
  | 0, _ => []
  | _ + 1, [] => []
  | fuel + 1, c :: r =>
    match percentAt (c :: r) with
    | some (v, len) => v :: percentScan fuel ((c :: r).drop len)
    | none => percentScan fuel r

def percentValues (s : String) : List Nat :=
  percentScan (s.data.length + 1) s.data

/-- ```
function pickBestPercent(text) {
  const re = /(\d{1,3})\s*%/g;
  let m, best = null;
  while ((m = re.exec(text))) {
    const v = parseInt(m[1], 10);
    if (v >= 5 && v <= 100) best = best == null ? v : Math.max(best, v);
  }
  return best;
}
``` -/
def pickBestPercent (text : String) : Option Nat :=
  (percentValues text).foldl
    (fun best v =>
      if 5 ≤ v && v ≤ 100 then
        some (match best with | none => v | some b => max b v)
      else best)
    none

/-- Keyword alternatives of the trailing `(?:off|discount|save)?`,
case-insensitive, tried in alternation order; returns consumed length. -/
def amountKeyword (s : List Char) : Nat :=
  if startsWithL (lowerL (s.take 3)) "off".data then 3
  else if startsWithL (lowerL (s.take 8)) "discount".data then 8
  else if startsWithL (lowerL (s.take 4)) "save".data then 4
  else 0

/-- Match `(?:\$|USD\s*)\s*(\d+(?:\.\d{2})?)\s*(?:off|discount|save)?`
(case-insensitive) at the start of `s`.  Returns the captured amount in
cents and the consumed length. -/
def amountAt (s : List Char) : Option (Nat × Nat) :=
  let marker : Option Nat :=
    match s with
    | '$' :: _ => some 1
    | _ =>
      if startsWithL (lowerL (s.take 3)) "usd".data then
        some (3 + ((s.drop 3).takeWhile isJsWs).length)
      else none
  match marker with
  | none => none
  | some mk =>
    let r0 := s.drop mk
    let ws1 := (r0.takeWhile isJsWs).length
    let r1 := r0.drop ws1
    let ds := r1.takeWhile isDigit
    if ds.isEmpty then none
    else
      let r2 := r1.drop ds.length
      let (cents, numLen) :=
        match r2 with
        | '.' :: d1 :: d2 :: _ =>
          if isDigit d1 && isDigit d2 then
            (digitsVal ds * 100 + digitsVal [d1, d2], ds.length + 3)
          else (digitsVal ds * 100, ds.length)
        | _ => (digitsVal ds * 100, ds.length)
      let r3 := r1.drop numLen
      let ws2 := (r3.takeWhile isJsWs).length
      let kw := amountKeyword (r3.drop ws2)
      some (cents, mk + ws1 + numLen + ws2 + kw)

/-- All captured amounts (in cents) of the money regex in text order. -/
def amountScan : Nat → List Char → List Nat
  | 0, _ => []
  | _ + 1, [] => []
  | fuel + 1, c :: r =>
    match amountAt (c :: r) with
    | some (v, len) => v :: amountScan fuel ((c :: r).drop len)
    | none => amountScan fuel r

def amountValues (s : String) : List Nat :=
  amountScan (s.data.length + 1) s.data

/-- `pickBestAmount`: maximum positive amount, in cents (`parseFloat` of the
captured group is exact for these two-decimal literals). -/
def pickBestAmount (text : String) : Option Nat :=
  (amountValues text).foldl
    (fun best v =>
      if 0 < v then
        some (match best with | none => v | some b => max b v)
      else best)
    none

/-- Decimal rendering of a JS number holding an exact cent amount:
`String(5)` is `"5"`, `String(5.1)` is `"5.1"`, `String(5.99)` is
`"5.99"` — trailing zero cents disappear because the float `5.00` IS `5`. -/
def jsNumToString (cents : Nat) : String :=
  let i := cents / 100
  let r := cents % 100
  if r = 0 then toString i
  else if r % 10 = 0 then toString i ++ "." ++ toString (r / 10)
  else if r < 10 then toString i ++ ".0" ++ toString r
  else toString i ++ "." ++ toString r

/-- ```
function deriveTitle(raw) {
  const p = pickBestPercent(raw);
  if (p != null) return `${p}% off`;
  const a = pickBestAmount(raw);
  if (a != null) return `$${a} off`;
  return null;
}
``` -/
def deriveTitle (raw : String) : Option String :=
  match pickBestPercent raw with
  | some p => some (toString p ++ "% off")
  | none =>
    match pickBestAmount raw with
    | some a => some ("$" ++ jsNumToString a ++ " off")
    | none => none

/-! ## JavaScript calendar dates

`lib/ocr.ts` builds dates with `new Date(yy, mm-1, dd)` and with the V8
string parser (`new Date("Jan 5 2026")`), then prints them through
`getFullYear`/`getMonth`/`getDate`.  ECMA-262 `MakeDay(y, m, d)` first
normalizes the month into `[0, 11]` carrying whole years, then takes day 1
of that month plus `d − 1` days — out-of-range days roll over through the
calendar rather than failing.  We model the date part directly as a civil
date triple. -/

structure Ymd where
  year : Int
  month : Nat
  day : Nat
deriving Repr, DecidableEq

def isLeap (y : Int) : Bool := y % 4 = 0 && (y % 100 ≠ 0 || y % 400 = 0)

def daysInMonth (y : Int) (m : Nat) : Nat :=
  if m = 2 then (if isLeap y then 29 else 28)
  else if m = 4 || m = 6 || m = 9 || m = 11 then 30
  else 31

def incDay (x : Ymd) : Ymd :=
  if x.day < daysInMonth x.year x.month then ⟨x.year, x.month, x.day + 1⟩
  else if x.month < 12 then ⟨x.year, x.month + 1, 1⟩
  else ⟨x.year + 1, 1, 1⟩

def decDay (x : Ymd) : Ymd :=
  if 1 < x.day then ⟨x.year, x.month, x.day - 1⟩
  else if 1 < x.month then ⟨x.year, x.month - 1, daysInMonth x.year (x.month - 1)⟩
  else ⟨x.year - 1, 12, 31⟩

def addDaysN : Nat → Ymd → Ymd
  | 0, x => x
  | n + 1, x => addDaysN n (incDay x)

def decDaysN : Nat → Ymd → Ymd
  | 0, x => x
  | n + 1, x => decDaysN n (decDay x)

/-- The date part of `new Date(y, m0, d)` (ECMA-262 `MakeDay`): month
normalized into `[0, 11]` with year carry, then day 1 plus `d − 1` days of
calendar arithmetic. -/
def jsMakeDate (y : Int) (m0 : Int) (d : Int) : Ymd :=
  let base : Ymd := ⟨y + m0.fdiv 12, (m0.emod 12).toNat + 1, 1⟩
  if 1 ≤ d then addDaysN (d - 1).toNat base
  else decDaysN (1 - d).toNat base

def Ymd.wf (x : Ymd) : Prop :=
  1 ≤ x.month ∧ x.month ≤ 12 ∧ 1 ≤ x.day ∧ x.day ≤ daysInMonth x.year x.month

def pad2 (n : Nat) : String :=
  if n < 10 then "0" ++ toString n else toString n

/-- ```
function toISODateOnly(d) {
  const y = d.getFullYear(), m = String(d.getMonth()+1).padStart(2,"0"),
        day = String(d.getDate()).padStart(2,"0");
  return `${y}-${m}-${day}`;
}
``` -/
def toISODateOnly (x : Ymd) : String :=
  toString x.year ++ "-" ++ pad2 x.month ++ "-" ++ pad2 x.day

/-! ## The expiry resolver of lib/ocr.ts (src/unnamed/part_002) -/

/-- JS numeric coercion `+str` for the strings that reach it here: the
pieces produced by splitting a regex match on `[\/\-]` are digit-only (or
empty, which coerces to `0`); anything else is `NaN`, modelled as `none`.
Exotic `ToNumber` forms (signs, exponents, hex) cannot be produced by the
date regexes. -/
def jsNumOfDigits (s : List Char) : Option Int :=
  if s.all isDigit then some (digitsVal s : Int) else none

/-- The core of `numericToISO` after `s.split(/[\/\-]/)`: `+a`, `+b`, `+c`
with `+undefined = NaN`; syntactic month/day validation with swap; two-digit
years mapped to the 2000s; then `new Date(yy, mm-1, dd)`.
`isNaN(d.getTime())` is only true when one of the coerced numbers is `NaN`.
-/
def numericCore (pa pb pc : Option (List Char)) : Option String :=
  let ma : Option Int := match pa with | some a => jsNumOfDigits a | none => none
  let mb : Option Int := match pb with | some b => jsNumOfDigits b | none => none
  let mc : Option Int := match pc with | some c => jsNumOfDigits c | none => none
  let ok : Bool := match ma, mb with
    | some m, some d => decide (1 ≤ m) && decide (m ≤ 12) && decide (1 ≤ d) && decide (d ≤ 31)
    | _, _ => false
  let mmdd := if ok then (ma, mb) else (mb, ma)
  match mmdd.1, mmdd.2, mc with
  | some mm, some dd, some yraw =>
    let yy := if yraw < 100 then yraw + 2000 else yraw
    some (toISODateOnly (jsMakeDate yy (mm - 1) dd))
  | _, _, _ => none

/-- ```
function numericToISO(s) {
  const [a,b,c] = s.split(/[\/\-]/).map(v=>v.trim()); let mm=+a, dd=+b, yy=+c;
  if (yy<100) yy+=2000;
  if (!(mm>=1&&mm<=12&&dd>=1&&dd<=31)) { mm=+b; dd=+a; }
  const d = new Date(yy, mm-1, dd); return isNaN(d.getTime())? null : toISODateOnly(d);
}
``` -/
def numericToISO (s : String) : Option String :=
  let parts := (splitEachL (fun c => c = '/' || c = '-') s.data).map jsTrimL
  numericCore (parts.get? 0) (parts.get? 1) (parts.get? 2)

/-- Month-name prefixes of the alternation
`jan|feb|mar|apr|may|jun|jul|aug|sep|sept|oct|nov|dec`, in order. -/
def ocrMonthPrefixes : List (List Char) :=
  ["jan".data, "feb".data, "mar".data, "apr".data, "may".data, "jun".data,
   "jul".data, "aug".data, "sep".data, "sept".data, "oct".data, "nov".data,
   "dec".data]

/-- Match the capture of
`/((?:jan|...|dec)[a-z]*\s+\d{1,2}(?:,\s*\d{2,4})?)/i` at the start of
`s`; returns the consumed length. -/
def ocrMonthAt (s : List Char) : Option Nat :=
  firstSome ocrMonthPrefixes (fun pre =>
    if startsWithL (lowerL (s.take pre.length)) pre then
      let rest0 := s.drop pre.length
      let letters := (rest0.takeWhile isAsciiAlpha).length
      let rest1 := rest0.drop letters
      let ws := (rest1.takeWhile isJsWs).length
      if ws = 0 then none
      else
        let rest2 := rest1.drop ws
        firstSome [2, 1] (fun k =>
          match takeDigitsExact k rest2 with
          | none => none
          | some rest3 =>
            let base := pre.length + letters + ws + k
            match rest3 with
            | ',' :: rest4 =>
              let ws2 := (rest4.takeWhile isJsWs).length
              let rest5 := rest4.drop ws2
              match firstSome [4, 3, 2] (fun ky =>
                  (takeDigitsExact ky rest5).map (fun _ => ky)) with
              | some ky => some (base + 1 + ws2 + ky)
              | none => some base
            | _ => some base)
    else none)

/-- Month keywords of the V8 legacy date-string parser.  The keyword table
compares only the first three letters of a word (`kPrefixLength = 3`) and
ignores the rest, so "Decades 5" parses as a December date. -/
def monthKeyword3 : List (List Char × Nat) :=
  [("jan".data, 1), ("feb".data, 2), ("mar".data, 3), ("apr".data, 4),
   ("may".data, 5), ("jun".data, 6), ("jul".data, 7), ("aug".data, 8),
   ("sep".data, 9), ("oct".data, 10), ("nov".data, 11), ("dec".data, 12)]

def monthFromWord (w : List Char) : Option Nat :=
  if w.length < 3 then none
  else firstSome monthKeyword3 (fun p =>
    if startsWithL (lowerL w) p.1 then some p.2 else none)

/-- ```
function toISO(s) { const d = new Date(s.replace(/,/g,""));
  return isNaN(d.getTime())? null : toISODateOnly(d); }
```
The argument always has the shape `word ws day [ws year]` here.  V8 legacy
parsing: the first three letters of the word select the month (the rest of
the word is ignored), the day must be in `[1, 31]` (a larger or zero day
gives an Invalid Date), a missing year defaults to 2001, two-digit years
map to 2000s (below 50) or 1900s, and the assembled date goes through
`MakeDay` — an in-range day that the month does not have rolls over into
the next month instead of failing. -/
def toISO (s : String) : Option String :=
  let toks := ((splitRunsL isJsWs (s.data.filter (fun c => c ≠ ','))).filter
    (fun t => ¬ t.isEmpty))
  let core : Option (Nat × Nat × Int) :=
    match toks with
    | [w, d] =>
      match monthFromWord w, jsNumOfDigits d with
      | some m, some dv => some (m, dv.toNat, 2001)
      | _, _ => none
    | [w, d, y] =>
      match monthFromWord w, jsNumOfDigits d, jsNumOfDigits y with
      | some m, some dv, some yv =>
        let yv' := if yv < 50 then yv + 2000 else if yv < 100 then yv + 1900 else yv
        some (m, dv.toNat, yv')
      | _, _, _ => none
    | _ => none
  match core with
  | some (m, d, y) =>
    if 1 ≤ d ∧ d ≤ 31 then some (toISODateOnly (jsMakeDate y ((m : Int) - 1) d))
    else none
  | none => none

/-- Match the capture of `/((?:\d{1,2})[\/\-](?:\d{1,2})[\/\-](?:\d{2,4}))/i`
at the start of `s` (greedy digit counts, tried longest first). -/
def ocrNumericAt (s : List Char) : Option Nat :=
  let sep := fun c => c = '/' || c = '-'
  firstSome [2, 1] (fun k1 =>
    match takeDigitsExact k1 s with
    | none => none
    | some r1 =>
      match r1 with
      | c1 :: r2 =>
        if sep c1 then
          firstSome [2, 1] (fun k2 =>
            match takeDigitsExact k2 r2 with
            | none => none
            | some r3 =>
              match r3 with
              | c2 :: r4 =>
                if sep c2 then
                  firstSome [4, 3, 2] (fun k3 =>
                    (takeDigitsExact k3 r4).map
                      (fun _ => k1 + 1 + k2 + 1 + k3))
                else none
              | [] => none)
        else none
      | [] => none)

/-- Leftmost match of an anchored matcher (the `exec` of a non-global
regex), returning the matched substring. -/
def scanFirst (f : List Char → Option Nat) : Nat → List Char → Option (List Char)
  | 0, _ => none
  | _ + 1, [] => none
  | fuel + 1, c :: r =>
    match f (c :: r) with
    | some len => some ((c :: r).take len)
    | none => scanFirst f fuel r

def execFirst (f : List Char → Option Nat) (s : List Char) : Option String :=
  (scanFirst f (s.length + 1) s).map (fun l => ⟨l⟩)

/-- ```
function detectExpiryISO(text) {
  const month = /(...month...)/i.exec(text)?.[1];
  if (month) { const iso = toISO(month); if (iso) return iso; }
  const num = /((?:\d{1,2})[\/\-](?:\d{1,2})[\/\-](?:\d{2,4}))/i.exec(text)?.[1];
  if (num) { const iso = numericToISO(num); if (iso) return iso; }
  return null;
}
``` -/
def detectExpiryISO (text : String) : Option String :=
  let monthIso : Option String :=
    match execFirst ocrMonthAt text.data with
    | some cap => toISO cap
    | none => none
  match monthIso with
  | some iso => some iso
  | none =>
    match execFirst ocrNumericAt text.data with
    | some cap => numericToISO cap
    | none => none

/-- Case-insensitive literal-prefix test (`pat` given in lower case). -/
def startsCI (s : List Char) (pat : String) : Bool :=
  startsWithL (lowerL (s.take pat.data.length)) pat.data

/-- The `\b` boundary after a word character: end of input or a non-word
character next. -/
def boundaryAfter (l : List Char) : Bool :=
  match l with
  | [] => true
  | c :: _ => ¬ isWordChar c

/-- Leftmost match of an anchored matcher that additionally requires a
word boundary before the match (all patterns concerned start with a word
character): scans with the previous-character word flag. -/
def scanBFirst {α : Type} (f : List Char → Option α) :
    Bool → List Char → Option (List Char × α)
  | _, [] => none
  | pw, c :: r =>
    match (if pw then none else f (c :: r)) with
    | some a => some (c :: r, a)
    | none => scanBFirst f (isWordChar c) r

/-! ## `parseCouponBasics` of lib/ocr.ts (src/unnamed/part_002) -/

/-- `replace(/[ \t]+/g, " ")`. -/
def collapseSpTabGo : Nat → List Char → List Char
  | 0, l => l
  | _ + 1, [] => []
  | fuel + 1, c :: r =>
    if c = ' ' || c = '\t' then
      ' ' :: collapseSpTabGo fuel (r.dropWhile (fun x => x = ' ' || x = '\t'))
    else c :: collapseSpTabGo fuel r

def collapseSpTabL (s : List Char) : List Char :=
  collapseSpTabGo (s.length + 1) s

/-- `split(/\r?\n/)`: split at every LF, also consuming a CR directly
before it. -/
def splitCRLF : List Char → List (List Char) :=
  go []
where
  go (acc : List Char) (l : List Char) : List (List Char) :=
    match l with
    | [] => [acc.reverse]
    | '\r' :: '\n' :: r => acc.reverse :: go [] r
    | '\n' :: r => acc.reverse :: go [] r
    | c :: r => go (c :: acc) r

/-- ```
function isLikelyMerchant(line) {
  const bad = /(valid|coupon|expires|discount|percent|%|off|save|only|terms|conditions|present|offer)/i;
  const hasLetters = /[A-Za-z]/.test(line);
  return hasLetters && !bad.test(line) && line.length <= 40;
}
``` (plain substrings, no word boundaries). -/
def isLikelyMerchant (line : String) : Bool :=
  let badWords : List String :=
    ["valid", "coupon", "expires", "discount", "percent", "%", "off",
     "save", "only", "terms", "conditions", "present", "offer"]
  line.data.any isAsciiAlpha &&
  ¬ badWords.any (fun w => containsCI line.data w.data) &&
  line.data.length ≤ 40

/-- One alternative of `/\b(bogo|buy\s*1\s*get\s*1)\b/i` anchored at
`s` (leading boundary from the scanner). -/
def bogoAltAt (s : List Char) : Bool :=
  (startsCI s "bogo" && boundaryAfter (s.drop 4)) ||
  (startsCI s "buy" &&
    (let r1 := (s.drop 3).dropWhile isJsWs
     match r1 with
     | '1' :: r2 =>
       let r3 := r2.dropWhile isJsWs
       startsCI r3 "get" &&
         (let r4 := (r3.drop 3).dropWhile isJsWs
          match r4 with
          | '1' :: r5 => boundaryAfter r5
          | _ => false)
     | _ => false))

def bogoScan : Bool → List Char → Bool
  | _, [] => false
  | pw, c :: r => (¬ pw && bogoAltAt (c :: r)) || bogoScan (isWordChar c) r

def bogoTest (s : String) : Bool := bogoScan false s.data

structure CouponBasics where
  storeGuess : Option String
  discount_kind : Option String
  discount_value : Option ℚ
  expires_guess : Option String
deriving Repr, DecidableEq

/-- ```
export function parseCouponBasics(raw) {
  const text = raw.replace(/[ \t]+/g, " ").replace(/\u00A0/g, " ").trim();
  const lines = text.split(/\r?\n/).map(l => l.trim()).filter(Boolean);
  const storeGuess =
    lines.find(l => isLikelyMerchant(l)) ?? (lines[0]?.length <= 40 ? lines[0] : undefined);
  const percent = pickBestPercent(text);
  const amount  = pickBestAmount(text);
  const bogo    = /\b(bogo|buy\s*1\s*get\s*1)\b/i.test(text);
  let discount_kind; let discount_value;
  if (percent != null) { discount_kind = "percent"; discount_value = percent; }
  else if (amount != null) { discount_kind = "amount"; discount_value = amount; }
  else if (bogo) { discount_kind = "bogo"; }
  const expires_guess = detectExpiryISO(text);
  return { storeGuess, discount_kind, discount_value, expires_guess };
}
```
(`lines[0]?.length <= 40` is `false` when `lines` is empty, because
`undefined <= 40` is `false`.)  Amounts are cents, so `discount_value` for
the amount kind is `cents / 100`. -/
def basicsNormText (raw : String) : String :=
  jsTrim ⟨(collapseSpTabL raw.data).map
    (fun c => if c = Char.ofNat 0xA0 then ' ' else c)⟩

def parseCouponBasics (raw : String) : CouponBasics :=
  let text : String := basicsNormText raw
  let lines : List String :=
    (((splitCRLF text.data).map jsTrimL).filter (fun t => ¬ t.isEmpty)).map
      (fun t => ⟨t⟩)
  let storeGuess : Option String :=
    match lines.find? isLikelyMerchant with
    | some l => some l
    | none =>
      match lines.head? with
      | some l => if l.data.length ≤ 40 then some l else none
      | none => none
  let percent := pickBestPercent text
  let amount := pickBestAmount text
  let bogo := bogoTest text
  let kd : Option String × Option ℚ :=
    match percent with
    | some p => (some "percent", some (p : ℚ))
    | none =>
      match amount with
      | some a => (some "amount", some ((a : ℚ) / 100))
      | none => if bogo then (some "bogo", none) else (none, none)
  ⟨storeGuess, kd.1, kd.2, detectExpiryISO text⟩

/-! ## The text-only extractor of src/lib/geo.ts: terms, mode, expiry,
`extractCouponFields` -/

/-- The alternatives of
`text.search(/\b(terms|conditions|valid|offer valid|not valid|exclusions|present|only)\b/i)`. -/
def termsAlts : List String :=
  ["terms", "conditions", "valid", "offer valid", "not valid",
   "exclusions", "present", "only"]

def termsAltMatchAt (s : List Char) : Bool :=
  termsAlts.any (fun w => startsCI s w && boundaryAfter (s.drop w.data.length))

/-- Index returned by `text.search(...)`, scanning with the leading `\b`. -/
def searchTerms : Bool → Nat → List Char → Option Nat
  | _, _, [] => none
  | pw, pos, c :: r =>
    if ¬ pw && termsAltMatchAt (c :: r) then some pos
    else searchTerms (isWordChar c) (pos + 1) r

/-- ```
function extractTerms(raw) {
  const text = raw.replace(/\s+/g, ' ').trim();
  const idx = text.search(/\b(terms|conditions|valid|offer valid|not valid|exclusions|present|only)\b/i);
  if (idx >= 0) { const snippet = text.slice(idx); return snippet.slice(0, 400); }
  return text.slice(Math.max(0, text.length - 300));
}
``` -/
def extractTerms (raw : String) : String :=
  let text := jsTrimL (collapseWsL raw.data)
  match searchTerms false 0 text with
  | some idx => ⟨(text.drop idx).take 400⟩
  | none => ⟨text.drop (text.length - 300)⟩

/-- Group match of `(dine[\s-]?in|pickup|pick[\s-]?up)` at the start of
`s` (alternation order, greedy optional separator); returns consumed
length.  The trailing `\b` is checked here, the leading one by the
scanner. -/
def modeAltAt (s : List Char) : Option Nat :=
  if startsCI s "dine" then
    let r := s.drop 4
    match r with
    | c :: r2 =>
      if (isJsWs c || c = '-') && startsCI r2 "in" && boundaryAfter (r2.drop 2) then
        some 7
      else if startsCI r "in" && boundaryAfter (r.drop 2) then some 6
      else if startsCI s "pickup" && boundaryAfter (s.drop 6) then some 6
      else pickPart s
    | [] =>
      if startsCI s "pickup" && boundaryAfter (s.drop 6) then some 6
      else pickPart s
  else if startsCI s "pickup" && boundaryAfter (s.drop 6) then some 6
  else pickPart s
where
  /-- The third alternative `pick[\s-]?up`. -/
  pickPart (s : List Char) : Option Nat :=
    if startsCI s "pick" then
      let r := s.drop 4
      match r with
      | c :: r2 =>
        if (isJsWs c || c = '-') && startsCI r2 "up" && boundaryAfter (r2.drop 2) then
          some 7
        else if startsCI r "up" && boundaryAfter (r.drop 2) then some 6
        else none
      | [] => none
    else none

/-- ```
function detectMode(raw) {
  const m = raw.match(MODE_RE);
  if (!m) return '';
  return m[1].toLowerCase().includes('dine') ? 'dine-in' : 'pickup';
}
``` -/
def detectMode (raw : String) : String :=
  match scanBFirst modeAltAt false raw.data with
  | none => ""
  | some (suf, len) =>
    if containsL (lowerL (suf.take len)) "dine".data then "dine-in" else "pickup"

/-! ### The three expiry regexes of geo.ts `extractExpiry` (the matched
substring is returned raw, without normalization) -/

def digit19 (c : Char) : Bool := '1' ≤ c && c ≤ '9'

def dateSep (c : Char) : Bool := c = '/' || c = '-' || c = '.'

/-- Alternatives (consumed lengths, in order) of `(0?[1-9]|1[0-2])`. -/
def altsMM (s : List Char) : List Nat :=
  match s with
  | c0 :: c1 :: _ =>
    (if c0 = '0' && digit19 c1 then [2] else []) ++
    (if digit19 c0 then [1] else []) ++
    (if c0 = '1' && ('0' ≤ c1 && c1 ≤ '2') then [2] else [])
  | [c0] => if digit19 c0 then [1] else []
  | [] => []

/-- Alternatives of `(0?[1-9]|[12]\d|3[01])`. -/
def altsDD (s : List Char) : List Nat :=
  match s with
  | c0 :: c1 :: _ =>
    (if c0 = '0' && digit19 c1 then [2] else []) ++
    (if digit19 c0 then [1] else []) ++
    (if (c0 = '1' || c0 = '2') && isDigit c1 then [2] else []) ++
    (if c0 = '3' && (c1 = '0' || c1 = '1') then [2] else [])
  | [c0] => if digit19 c0 then [1] else []
  | [] => []

/-- Alternatives of `(20\d{2}|\d{2})`. -/
def altsYY (s : List Char) : List Nat :=
  (match s with
   | a :: b :: c :: d :: _ =>
     if a = '2' && b = '0' && isDigit c && isDigit d then [4] else []
   | _ => []) ++
  (match s with
   | a :: b :: _ => if isDigit a && isDigit b then [2] else []
   | _ => [])

/-- `(0?[1-9]|1[0-2])[\/\-.](0?[1-9]|[12]\d|3[01])[\/\-.](20\d{2}|\d{2})\b`
anchored at `s` (the leading `\b` is the scanner's). -/
def geoNumericAt (s : List Char) : Option Nat :=
  firstSome (altsMM s) (fun k1 =>
    match s.drop k1 with
    | c1 :: r1 =>
      if dateSep c1 then
        firstSome (altsDD r1) (fun k2 =>
          match r1.drop k2 with
          | c2 :: r2 =>
            if dateSep c2 then
              firstSome (altsYY r2) (fun k3 =>
                if boundaryAfter (r2.drop k3) then some (k1 + 1 + k2 + 1 + k3)
                else none)
            else none
          | [] => none)
      else none
    | [] => none)

/-- Month alternatives of the geo `longRe`
`(Jan(?:uary)?|Feb(?:ruary)?|...)`: prefix and ordered greedy suffix
alternatives. -/
def geoMonths : List (String × List String) :=
  [("jan", ["uary", ""]), ("feb", ["ruary", ""]), ("mar", ["ch", ""]),
   ("apr", ["il", ""]), ("may", [""]), ("jun", ["e", ""]),
   ("jul", ["y", ""]), ("aug", ["ust", ""]),
   ("sep", ["t", "tember", ""]), ("oct", ["ober", ""]),
   ("nov", ["ember", ""]), ("dec", ["ember", ""])]

/-- `longRe` anchored at `s`:
`(month)\.?\s+\d{1,2},?\s+(20\d{2}|\d{2})\b` (case-insensitive). -/
def geoLongAt (s : List Char) : Option Nat :=
  firstSome geoMonths (fun mp =>
    if startsCI s mp.1 then
      let r0 := s.drop mp.1.data.length
      firstSome mp.2 (fun suf =>
        if startsCI r0 suf then
          let r1 := r0.drop suf.data.length
          firstSome (optCharAlts '.' r1) (fun r2 =>
            let ws1 := (r2.takeWhile isJsWs).length
            if ws1 = 0 then none
            else
              let r3 := r2.drop ws1
              firstSome [2, 1] (fun kd =>
                match takeDigitsExact kd r3 with
                | none => none
                | some r4 =>
                  firstSome (optCharAlts ',' r4) (fun r5 =>
                    let ws2 := (r5.takeWhile isJsWs).length
                    if ws2 = 0 then none
                    else
                      let r6 := r5.drop ws2
                      firstSome (altsYY r6) (fun ky =>
                        if boundaryAfter (r6.drop ky) then
                          some (s.length - r6.length + ky)
                        else none))))
        else none)
    else none)

/-- Label alternatives of the geo `labeledRe`:
`(expires?|valid (?:thru|through|until))`, consumed lengths in order. -/
def geoLabelAlts (s : List Char) : List Nat :=
  (if startsCI s "expire" then
    (if startsCI (s.drop 6) "s" then [7] else []) ++ [6]
   else []) ++
  (if startsCI s "valid " then
    (["thru", "through", "until"].filterMap (fun kw =>
      if startsCI (s.drop 6) kw then some (6 + kw.data.length) else none))
   else [])

/-- `labeledRe` anchored at `s`:
`(expires?|valid (?:thru|through|until))[:\s]+(numeric date)\b`; returns
the offset and length of the captured date (group 2). -/
def geoLabeledAt (s : List Char) : Option (Nat × Nat) :=
  firstSome (geoLabelAlts s) (fun kl =>
    let r0 := s.drop kl
    let run := (r0.takeWhile (fun c => c = ':' || isJsWs c)).length
    if run = 0 then none
    else
      (geoNumericAt (r0.drop run)).map (fun dlen => (kl + run, dlen)))

/-- ```
function extractExpiry(raw) {
  const text = raw.replace(/\s+/g, ' ');
  const m1 = text.match(numericRe); if (m1) return m1[0];
  const m2 = text.match(longRe);    if (m2) return m2[0];
  const m3 = text.match(labeledRe); if (m3) return m3[2];
  return null;
}
``` -/
def extractExpiry (raw : String) : Option String :=
  let text := collapseWsL raw.data
  match scanBFirst geoNumericAt false text with
  | some (suf, len) => some ⟨suf.take len⟩
  | none =>
    match scanBFirst geoLongAt false text with
    | some (suf, len) => some ⟨suf.take len⟩
    | none =>
      match scanBFirst geoLabeledAt false text with
      | some (suf, od) => some ⟨(suf.drop od.1).take od.2⟩
      | none => none

/-- The `ParsedCoupon` record of src/lib/geo.ts; `mode` is one of the
string literals `'' | 'dine-in' | 'pickup'`; `store` and `address` are left
undefined (`none`) by the text-only extractor. -/
structure ParsedCoupon where
  store : Option String
  address : Option String
  phone : Option String
  mode : String
  location_note : Option String
  terms : Option String
  title : Option String
  expires_at : Option String
deriving Repr, DecidableEq

/-- ```
export function extractCouponFields(text, _blocks) {
  const phoneMatch = [...(text.matchAll(PHONE_RE) ?? [])].map((m) => m[0]);
  const pickDigits = (s) => (s.match(/\d/g) || []).length;
  const phone = phoneMatch.length
    ? phoneMatch.sort((a, b) => pickDigits(b) - pickDigits(a))[0] : null;
  const title = deriveTitle(text);
  const terms = extractTerms(text);
  const mode = detectMode(text);
  const expiry = extractExpiry(text);
  return { store: undefined, address: undefined, phone, mode,
           location_note: null, terms, title, expires_at: expiry };
}
```
`li` is the `lastIndex` of the module-level `PHONE_RE` at call time
(`matchAll` starts from a copy of it). -/
def extractCouponFields (li : Nat) (text : String) : ParsedCoupon :=
  { store := none
    address := none
    phone := pickPhone li text
    mode := detectMode text
    location_note := none
    terms := some (extractTerms text)
    title := deriveTitle text
    expires_at := extractExpiry text }

/-! ## Building blocks of the layout-aware extractor (src/lib/geo.ts) -/

/-- `toTitleCase`: `replace(/\w\S*/g, w => w[0].toUpperCase() + w.slice(1).toLowerCase())`. -/
def toTitleCaseGo : Nat → List Char → List Char
  | 0, l => l
  | _ + 1, [] => []
  | fuel + 1, c :: r =>
    if isWordChar c then
      let rest := r.takeWhile (fun x => ¬ isJsWs x)
      (upperChar c :: lowerL rest) ++ toTitleCaseGo fuel (r.drop rest.length)
    else c :: toTitleCaseGo fuel r

def toTitleCaseL (s : List Char) : List Char := toTitleCaseGo (s.length + 1) s

/-- `replace(/([a-z])([A-Z])/g, '$1 $2')`: insert a space at each
lower-upper boundary, resuming after the matched pair. -/
def insertCamel : List Char → List Char
  | a :: b :: r =>
    if ('a' ≤ a && a ≤ 'z') && ('A' ≤ b && b ≤ 'Z') then
      a :: ' ' :: b :: insertCamel r
    else a :: insertCamel (b :: r)
  | l => l

/-- `replace(/([a-z]{3,})([a-z]{3,})/gi, '$1 $2')`: inside each letter run
of length `≥ 6` the greedy first group takes everything except the last
three letters, so the run splits before its final three letters; shorter
runs cannot match. -/
def splitStuckGo : Nat → List Char → List Char
  | 0, l => l
  | _ + 1, [] => []
  | fuel + 1, c :: r =>
    if isAsciiAlpha c then
      let run := (c :: r).takeWhile isAsciiAlpha
      let rest := (c :: r).drop run.length
      (if 6 ≤ run.length then
        run.take (run.length - 3) ++ ' ' :: run.drop (run.length - 3)
       else run) ++ splitStuckGo fuel rest
    else c :: splitStuckGo fuel r

/-- ```
function spacedFromDomainLabel(label) {
  const hy = label.split('-').join(' ');
  const withSpaces = hy
    .replace(/([a-z])([A-Z])/g, '$1 $2')
    .replace(/([a-z]{3,})([a-z]{3,})/gi, '$1 $2');
  return toTitleCase(withSpaces);
}
``` -/
def spacedFromDomainLabel (label : String) : String :=
  let hy := label.data.map (fun c => if c = '-' then ' ' else c)
  ⟨toTitleCaseL (splitStuckGo (hy.length + 1) (insertCamel hy))⟩

/-- `normalizeName`: lower-case and keep only `[a-z0-9]`. -/
def normalizeName (s : List Char) : List Char :=
  (lowerL s).filter (fun c => ('a' ≤ c && c ≤ 'z') || isDigit c)

/-- `allCapsRatio`: capital letters over ASCII letters, `0` if none. -/
def capsFrac (s : List Char) : ℚ :=
  let letters := s.filter isAsciiAlpha
  if letters.isEmpty then 0
  else (letters.filter (fun c => 'A' ≤ c && c ≤ 'Z')).length / letters.length

/-- `fuzzyScore`: exact `1`, substring either way `0.85`, else distinct-token
overlap over the larger token-set size.  (The JS `Set` only contributes
distinct counts, so the dedup order is immaterial.) -/
def fuzzyScore (a b : List Char) : ℚ :=
  let A := jsTrimL (lowerL a)
  let B := jsTrimL (lowerL b)
  if A.isEmpty || B.isEmpty then 0
  else if A = B then 1
  else if containsL A B || containsL B A then 85 / 100
  else
    let at' := ((splitRunsL isJsWs A).filter (fun t => ¬ t.isEmpty)).dedup
    let bt := ((splitRunsL isJsWs B).filter (fun t => ¬ t.isEmpty)).dedup
    let inter := (at'.filter (fun t => decide (t ∈ bt))).length
    (inter : ℚ) / max at'.length bt.length

/-! ### Street/ZIP/offer-language patterns -/

def streetSuffixes : List String :=
  ["ST", "STREET", "AVE", "AVENUE", "RD", "ROAD", "BLVD", "BOULEVARD",
   "DR", "DRIVE", "HWY", "HIGHWAY", "LN", "LANE", "CT", "COURT", "PL",
   "PLACE", "PKWY", "PARKWAY", "WAY", "TER", "TERRACE", "CIR", "CIRCLE"]

def addressHintsExtra : List String := ["STE", "SUITE", "#"]

/-- `ZIP_RE = /\b\d{5}(?:-\d{4})?\b/` anchored at `s` (scanner provides
the leading boundary): five digits, then either `-` plus four digits with a
trailing boundary, or a trailing boundary directly. -/
def zipAt (s : List Char) : Option Nat :=
  match takeDigitsExact 5 s with
  | none => none
  | some r =>
    match r with
    | '-' :: r2 =>
      match takeDigitsExact 4 r2 with
      | some r3 => if boundaryAfter r3 then some 10 else
          if boundaryAfter r then some 5 else none
      | none => if boundaryAfter r then some 5 else none
    | _ => if boundaryAfter r then some 5 else none

def zipTest (s : List Char) : Bool :=
  (scanBFirst zipAt false s).isSome

/-- ```
const hasStreetToken = (s) => {
  const normalized = (' ' + s.toUpperCase() + ' ').replace(/[.,]/g, ' ');
  return STREET_SUFFIXES.some((tok) => normalized.includes(' ' + tok + ' ')) ||
         ADDRESS_HINTS.some((tok) => normalized.includes(' ' + tok + ' ')) ||
         ZIP_RE.test(s);
};
``` -/
def hasStreetToken (s : List Char) : Bool :=
  let normalized :=
    ((' ' :: upperL s) ++ [' ']).map (fun c => if c = '.' || c = ',' then ' ' else c)
  streetSuffixes.any (fun t => containsL normalized (' ' :: t.data ++ [' '])) ||
  (streetSuffixes ++ addressHintsExtra).any
    (fun t => containsL normalized (' ' :: t.data ++ [' '])) ||
  zipTest s

/-- One alternative of `ADDRESS_BAD_RE =
/\b(buy\s*\d|free|%|percent|off\b|save\b|coupon|offer|valid only|customer must)\b/i`
anchored at `s`, given whether the previous character is a word character.
For the word-initial alternatives the leading `\b` needs a non-word
predecessor; for the bare `%` it needs a word predecessor, and the trailing
`\b` after `%` needs a word successor. -/
def badAltAt (pw : Bool) (s : List Char) : Bool :=
  (¬ pw &&
    ((startsCI s "buy" &&
       (let r := s.drop 3
        let ws := (r.takeWhile isJsWs).length
        match r.drop ws with
        | d :: rest => isDigit d && boundaryAfter rest
        | [] => false)) ||
     (startsCI s "free" && boundaryAfter (s.drop 4)) ||
     (startsCI s "percent" && boundaryAfter (s.drop 7)) ||
     (startsCI s "off" && boundaryAfter (s.drop 3)) ||
     (startsCI s "save" && boundaryAfter (s.drop 4)) ||
     (startsCI s "coupon" && boundaryAfter (s.drop 6)) ||
     (startsCI s "offer" && boundaryAfter (s.drop 5)) ||
     (startsCI s "valid only" && boundaryAfter (s.drop 10)) ||
     (startsCI s "customer must" && boundaryAfter (s.drop 13)))) ||
  (pw &&
    (match s with
     | '%' :: r => (match r with | c :: _ => isWordChar c | [] => false)
     | _ => false))

def badScan : Bool → List Char → Bool
  | _, [] => false
  | pw, c :: r => badAltAt pw (c :: r) || badScan (isWordChar c) r

/-- `ADDRESS_BAD_RE.test(line)`. -/
def addressBad (s : String) : Bool := badScan false s.data

/-! ### URL brand detection -/

def labelChar (c : Char) : Bool :=
  isDigit c || ('a' ≤ lowerChar c && lowerChar c ≤ 'z') || c = '-'

def urlTlds : List String := ["com", "net", "org", "co", "us", "edu"]

/-- `URL_RE = /\b((?:https?:\/\/)?(?:www\.)?([a-z0-9\-]+)\.(?:com|net|org|co|us|edu))\b/i`
anchored at `s`; `pw` tells whether the previous character is a word
character (the leading `\b` compares it with the first matched character).
Returns the captured domain label (group 2). -/
def urlAt (pw : Bool) (s : List Char) : Option (List Char) :=
  match s with
  | [] => none
  | c :: _ =>
    if pw = isWordChar c then none
    else
      let schemes : List Nat :=
        (if startsCI s "https://" then [8] else []) ++
        (if startsCI s "http://" then [7] else []) ++ [0]
      firstSome schemes (fun ks =>
        let r := s.drop ks
        let wwws : List Nat := (if startsCI r "www." then [4, 0] else [0])
        firstSome wwws (fun kw =>
          let r2 := r.drop kw
          let run := (r2.takeWhile labelChar).length
          if run = 0 then none
          else
            match r2.drop run with
            | '.' :: r4 =>
              firstSome urlTlds (fun tld =>
                if startsCI r4 tld && boundaryAfter (r4.drop tld.data.length) then
                  some (r2.take run)
                else none)
            | _ => none))

def urlScan : Bool → List Char → Option (List Char)
  | _, [] => none
  | pw, c :: r =>
    match urlAt pw (c :: r) with
    | some lbl => some lbl
    | none => urlScan (isWordChar c) r

/-! ### Data types of the layout-aware extractor -/

structure BBox where
  x : ℚ
  y : ℚ
  w : ℚ
  h : ℚ
deriving Repr, DecidableEq

structure OcrLineBlock where
  text : String
  bbox : Option BBox
deriving Repr, DecidableEq

/-- A flattened line, keeping its parent block. -/
structure LineItem where
  text : String
  block : Option OcrLineBlock
deriving Repr, DecidableEq

structure GeoPoint where
  lat : ℚ
  lng : ℚ
deriving Repr, DecidableEq

structure ExtractResult where
  store : Option String
  address : Option String
  phone : Option String
  geo : Option GeoPoint
deriving Repr, DecidableEq

/-- Flattening of blocks (or of the raw text) to trimmed non-empty lines:
```
const lines = [];
if (blocks?.length) {
  for (const b of blocks) {
    const parts = (b.text || '').split(/\n+/).map(s => s.trim()).filter(Boolean);
    for (const s of parts) lines.push({ text: s, block: b });
  }
} else {
  allText.split(/\n+/).map(s => s.trim()).filter(Boolean)
    .forEach(s => lines.push({ text: s }));
}
``` -/
def linesOf (blocks : Option (List OcrLineBlock)) (allText : String) :
    List LineItem :=
  let fromText : List LineItem :=
    (((splitRunsL (fun c => c = '
') allText.data).map jsTrimL).filter
      (fun t => ¬ t.isEmpty)).map (fun t => ⟨⟨t⟩, none⟩)
  match blocks with
  | some bs =>
    if bs.isEmpty then fromText
    else bs.flatMap (fun b =>
      ((((splitRunsL (fun c => c = '
') b.text.data).map jsTrimL).filter
        (fun t => ¬ t.isEmpty)).map (fun t => (⟨⟨t⟩, some b⟩ : LineItem))))
  | none => fromText

/-- The exclusion list of `stitchTopTitle`
(`/(www|valid|location|only|grand|rapids|celebration|dr|ne|excludes)/i`,
plain substrings). -/
def stitchStops : List String :=
  ["www", "valid", "location", "only", "grand", "rapids", "celebration",
   "dr", "ne", "excludes"]

def stitchPickGo : List LineItem → List String → List String
  | [], acc => acc
  | l :: ls, acc =>
    let t := jsTrim l.text
    if t.data.isEmpty || t.data.any isDigit || 14 < t.data.length then acc
    else if stitchStops.any (fun w => containsCI t.data w.data) then acc
    else
      let acc' := acc ++ [t]
      if 3 ≤ acc'.length then acc' else stitchPickGo ls acc'

/-- ```
function stitchTopTitle(lines) {
  const sorted = [...lines].sort((a, b) => (a.block?.bbox?.y ?? 0) - (b.block?.bbox?.y ?? 0));
  const picks = [];
  for (const l of sorted.slice(0, 5)) {
    const t = l.text.trim();
    if (!t || /\d/.test(t) || t.length > 14) break;
    if (/(www|valid|location|only|grand|rapids|celebration|dr|ne|excludes)/i.test(t)) break;
    picks.push(t);
    if (picks.length >= 3) break;
  }
  if (picks.length >= 2) return toTitleCase(picks.join(' '));
  return null;
}
``` -/
def stitchTopTitle (lines : List LineItem) : Option String :=
  let yOf : LineItem → ℚ := fun l =>
    match l.block with
    | some b => (match b.bbox with | some bb => bb.y | none => 0)
    | none => 0
  let sorted := sortAsc yOf lines
  let picks := stitchPickGo (sorted.take 5) []
  if 2 ≤ picks.length then
    some ⟨toTitleCaseL (String.intercalate " " picks).data⟩
  else none

/-! ### Scoring -/

/-- Top-of-image bonus `Math.max(0, 1.2 - y / 1000)` (geo.ts line 1144). -/
def topBonus (y : ℚ) : ℚ := max 0 (6 / 5 - y / 1000)

/-- Height bonus `Math.min(1.0, h / 100)` (geo.ts line 1145). -/
def heightBonus (h : ℚ) : ℚ := min 1 (h / 100)

/-- Centering bonus: `+0.2` when `Math.abs(centerX - 200) < 60` with
`centerX = x + w / 2` (geo.ts lines 1146-1147). -/
def centerBonus (x w : ℚ) : ℚ :=
  if |x + w / 2 - 200| < 60 then 1 / 5 else 0

/-- `scoreStoreCandidate(line, block?, brands?)` of src/lib/geo.ts (the
later version, with normalized-name brand matching).  The TS fields
`bbox.x/y/w/h` are required by the `BBox` type here, so `?? 0` is the
identity. -/
def scoreStoreCandidate (line : String) (block : Option OcrLineBlock)
    (brands : List String) : ℚ :=
  if (jsTrim line).data.isEmpty then -999
  else
    let caps := capsFrac line.data
    let hasDigits := line.data.any isDigit
    let hasAddrCue := hasStreetToken line.data
    let s0 := caps * 2 + (if ¬ hasDigits then 1 / 2 else 0) +
      (if ¬ hasAddrCue then 4 / 5 else 0)
    let s1 := s0 +
      (if brands.isEmpty then 0
       else
        let normLine := normalizeName line.data
        let hit := brands.any (fun b =>
          let nb := normalizeName b.data
          ¬ nb.isEmpty && ¬ normLine.isEmpty &&
            (normLine = nb || containsL normLine nb || containsL nb normLine))
        if hit then 5 / 2
        else
          let bestTok := (brands.map (fun b => fuzzyScore line.data b.data)).foldl max 0
          if 8 / 10 ≤ bestTok then 2
          else if 6 / 10 ≤ bestTok then 1
          else 0)
    let s2 := s1 +
      (match block with
       | some b =>
         (match b.bbox with
          | some bb => topBonus bb.y + heightBonus bb.h + centerBonus bb.x bb.w
          | none => 0)
       | none => 0)
    s2 + (if 40 < line.data.length then -(1 / 2) else 0)

/-- `scoreAddressCandidate(line, idxFromTop)` of src/lib/geo.ts; `li` is
the `lastIndex` of the shared global `PHONE_RE` when the embedded
`PHONE_RE.test(raw)` runs, and the updated value is returned. -/
def scoreAddressCandidate (line : String) (idxFromTop : Nat) (li : Nat) :
    ℚ × Nat :=
  let raw := jsTrim line
  if raw.data.isEmpty then (-999, li)
  else if addressBad raw then (-999, li)
  else
    let hasStreet := hasStreetToken raw.data
    let hasZip := zipTest raw.data
    let ph := phoneTest li raw
    let hasDigits := raw.data.any isDigit
    let len := raw.data.length
    let score :=
      (if hasStreet then 5 / 2 else 0) + (if hasZip then 3 / 2 else 0) +
      (if ph.1 then 3 / 5 else 0) + (if hasDigits then 2 / 5 else 0) +
      max 0 (4 / 5 - (idxFromTop : ℚ) * (1 / 20)) +
      (if len < 8 || 90 < len then -(1 / 2) else 0)
    (score, ph.2)

/-- Left-to-right scoring of the address candidates
(`lines.map((l, i) => ({...l, score: scoreAddressCandidate(l.text, i), idx: i}))`),
threading the `PHONE_RE.lastIndex` state; returns the scored list and the
final `lastIndex`. -/
def addrScoredGo (li : Nat) (idx : Nat) :
    List LineItem → List (String × ℚ) × Nat
  | [] => ([], li)
  | l :: ls =>
    let p := scoreAddressCandidate l.text idx li
    let rest := addrScoredGo p.2 (idx + 1) ls
    ((l.text, p.1) :: rest.1, rest.2)

/-- The scored address lines of one extraction call (text order). -/
def addrScoredOf (li : Nat) (blocks : Option (List OcrLineBlock))
    (allText : String) : List (String × ℚ) :=
  (addrScoredGo li 0 (linesOf blocks allText)).1

/-- The six ranked address candidates of one extraction call. -/
def addressCandidatesOf (li : Nat) (blocks : Option (List OcrLineBlock))
    (allText : String) : List (String × ℚ) :=
  (sortDesc Prod.snd (addrScoredGo li 0 (linesOf blocks allText)).1).take 6

/-- The geocode-validation loop: sequential over the ranked candidates,
keeping the best `heuristic + geocode` score; a thrown lookup (`none`) or
an empty result list skips the candidate. -/
def geocodeLoop (geocode : String → Option (List GeoPoint)) :
    List (String × ℚ) → ℚ × Option (String × GeoPoint) → ℚ × Option (String × GeoPoint)
  | [], st => st
  | cand :: rest, st =>
    let st' :=
      match geocode cand.1 with
      | some (g0 :: _) =>
        let geoScore : ℚ := 2 + (if zipTest cand.1.data then 3 / 10 else 0) +
          (if hasStreetToken cand.1.data then 1 / 5 else 0)
        let total := cand.2 + geoScore
        if st.1 < total then (total, some (cand.1, g0)) else st
      | _ => st
    geocodeLoop geocode rest st'

/-- `extractStoreAndAddressFromBlocks(blocks, allText, options)` of
src/lib/geo.ts.  `li` is the `lastIndex` of the module-level `PHONE_RE` at
entry (the address scoring advances it through `PHONE_RE.test` and the
final phone `matchAll` starts from the value it leaves behind);
`tryGeocode` is `options?.tryGeocode !== false`; `geocode` is the
`Location.geocodeAsync` oracle (`none` = rejection, `some []` = zero
results). -/
def extractStoreAndAddressFromBlocks (li : Nat)
    (blocks : Option (List OcrLineBlock)) (allText : String)
    (brands : List String) (tryGeocode : Bool)
    (geocode : String → Option (List GeoPoint)) : ExtractResult :=
  let lines := linesOf blocks allText
  let urlBrand : Option String :=
    (urlScan false (String.intercalate " " (lines.map (·.text))).data).map
      (fun lbl => spacedFromDomainLabel ⟨lbl⟩)
  let stitchedTop := stitchTopTitle lines
  let base : List (String × ℚ) :=
    lines.map (fun l => (l.text, scoreStoreCandidate l.text l.block brands))
  let base2 := base ++
    (match stitchedTop with
     | some t => [(t, scoreStoreCandidate t none brands + 1)]
     | none => []) ++
    (match urlBrand with
     | some t => [(t, scoreStoreCandidate t none brands + 6 / 5)]
     | none => [])
  let storeCandidates := (sortDesc Prod.snd base2).take 6
  let scored := addrScoredGo li 0 lines
  let addressCandidates := (sortDesc Prod.snd scored.1).take 6
  let best :=
    if tryGeocode && ¬ addressCandidates.isEmpty then
      geocodeLoop geocode addressCandidates (-999, none)
    else (-999, none)
  let bestAddress : Option String :=
    match best.2 with
    | some p => some p.1
    | none => (addressCandidates.head?).map Prod.fst
  let store : Option String :=
    match storeCandidates.head? with
    | some c => if c.1.data.isEmpty then none else some c.1
    | none => none
  ⟨store, bestAddress, pickPhone scored.2 allText,
    best.2.map Prod.snd⟩

/-- Modelled from the spec: the maximum element of a list of naturals,
`none` for the empty list (used to compare the implementation folds against
the "maximum valid value" wording). -/
def listMaxNat : List Nat → Option Nat
  | [] => none
  | v :: t => some (match listMaxNat t with | none => v | some m => max v m)

/-- Combination of an accumulator with an optional maximum (the state of
the `while`-loop folds in `pickBestPercent`/`pickBestAmount`). -/
def combineMax : Option Nat → Option Nat → Option Nat
  | none, m => m
  | some a, none => some a
  | some a, some m => some (max a m)

/-! ## Supporting lemmas -/

theorem jsTrimL_eq_rdrop (s : List Char) :
    jsTrimL s = List.rdropWhile isJsWs (s.dropWhile isJsWs) := rfl

theorem jsTrimL_idem (s : List Char) : jsTrimL (jsTrimL s) = jsTrimL s := by
  rw [jsTrimL_eq_rdrop, jsTrimL_eq_rdrop]
  have hdrop : (List.rdropWhile isJsWs (s.dropWhile isJsWs)).dropWhile isJsWs =
      List.rdropWhile isJsWs (s.dropWhile isJsWs) := by
    cases ht : List.rdropWhile isJsWs (s.dropWhile isJsWs) with
    | nil => simp
    | cons c t =>
      rw [List.dropWhile_eq_self_iff]
      intro hl
      have hget : (c :: t).get ⟨0, hl⟩ = c := rfl
      rw [hget]
      have hpre : List.rdropWhile isJsWs (s.dropWhile isJsWs) <+:
          s.dropWhile isJsWs := List.rdropWhile_prefix _ _
      obtain ⟨sfx, hsfx⟩ := hpre
      rw [ht] at hsfx
      have hlen : 0 < (s.dropWhile isJsWs).length := by
        rw [← hsfx]; simp
      have hc : (s.dropWhile isJsWs).get ⟨0, hlen⟩ = c := by
        have : (s.dropWhile isJsWs).head? = some c := by rw [← hsfx]; rfl
        have h2 := List.get_mk_zero hlen
        rw [List.head?_eq_head (by rw [← hsfx]; simp)] at this
        have := Option.some.inj this
        rw [← this, h2]
      have hnot := List.dropWhile_get_zero_not (p := isJsWs) s hlen
      rw [hc] at hnot
      simpa using hnot
  rw [hdrop, List.rdropWhile_idempotent]

theorem jsTrim_idem (s : String) : jsTrim (jsTrim s) = jsTrim s := by
  show (⟨jsTrimL (jsTrimL s.data)⟩ : String) = ⟨jsTrimL s.data⟩
  rw [jsTrimL_idem]

/-- Unfolding equations for `linesOf`. -/
theorem linesOf_none (allText : String) :
    linesOf none allText =
      (((splitRunsL (fun c => c = '\n') allText.data).map jsTrimL).filter
        (fun t => ¬ t.isEmpty)).map (fun t => (⟨⟨t⟩, none⟩ : LineItem)) := rfl

theorem linesOf_some (bs : List OcrLineBlock) (allText : String) :
    linesOf (some bs) allText =
      if bs.isEmpty then linesOf none allText
      else bs.flatMap (fun b =>
        ((((splitRunsL (fun c => c = '\n') b.text.data).map jsTrimL).filter
          (fun t => ¬ t.isEmpty)).map (fun t => (⟨⟨t⟩, some b⟩ : LineItem)))) := by
  by_cases h : bs.isEmpty <;> simp only [linesOf, h, if_true, if_false]

/-- Every flattened line is a trimmed non-empty string. -/
theorem linesOf_trimmed (blocks : Option (List OcrLineBlock))
    (allText : String) (l : LineItem) (hl : l ∈ linesOf blocks allText) :
    jsTrim l.text = l.text ∧ l.text ≠ "" := by
  have main : ∀ t : List Char, (∃ x, t = jsTrimL x) → ¬ t.isEmpty →
      l.text = ⟨t⟩ → jsTrim l.text = l.text ∧ l.text ≠ "" := by
    intro t hx hne hteq
    obtain ⟨x, hx⟩ := hx
    constructor
    · rw [hteq]
      show (⟨jsTrimL t⟩ : String) = ⟨t⟩
      rw [hx, jsTrimL_idem]
    · rw [hteq]
      intro hcon
      have ht : t = [] := congrArg String.data hcon
      rw [ht] at hne
      simp [List.isEmpty] at hne
  have fromTextCase : ∀ txt : String,
      l ∈ (((splitRunsL (fun c => c = '\n') txt.data).map jsTrimL).filter
        (fun t => ¬ t.isEmpty)).map (fun t => (⟨⟨t⟩, none⟩ : LineItem)) →
      jsTrim l.text = l.text ∧ l.text ≠ "" := by
    intro txt h
    rw [List.mem_map] at h
    obtain ⟨t, htm, hteq⟩ := h
    rw [List.mem_filter] at htm
    obtain ⟨hmem, hne⟩ := htm
    rw [List.mem_map] at hmem
    obtain ⟨x, _, hxe⟩ := hmem
    exact main t ⟨x, hxe.symm⟩ (by simpa using hne) (by rw [← hteq])
  cases blocks with
  | none => exact fromTextCase allText (by rwa [linesOf_none] at hl)
  | some bs =>
    rw [linesOf_some] at hl
    by_cases hbs : bs.isEmpty
    · rw [if_pos hbs, linesOf_none] at hl
      exact fromTextCase allText hl
    · rw [if_neg hbs] at hl
      rw [List.mem_flatMap] at hl
      obtain ⟨b, _, hb⟩ := hl
      rw [List.mem_map] at hb
      obtain ⟨t, htm, hteq⟩ := hb
      rw [List.mem_filter] at htm
      obtain ⟨hmem, hne⟩ := htm
      rw [List.mem_map] at hmem
      obtain ⟨x, _, hxe⟩ := hmem
      exact main t ⟨x, hxe.symm⟩ (by simpa using hne) (by rw [← hteq])

/-- First components of the scored address list are the line texts. -/
theorem addrScoredGo_map_fst (li idx : Nat) (lines : List LineItem) :
    ((addrScoredGo li idx lines).1).map Prod.fst = lines.map LineItem.text := by
  induction lines generalizing li idx with
  | nil => rfl
  | cons l ls ih => simp only [addrScoredGo, List.map_cons, List.map]
                    exact congrArg _ (ih _ _)

theorem addrScoredGo_length (li idx : Nat) (lines : List LineItem) :
    ((addrScoredGo li idx lines).1).length = lines.length := by
  have := congrArg List.length (addrScoredGo_map_fst li idx lines)
  simpa using this

/-- Every scored entry comes from a line, with the score produced by
`scoreAddressCandidate` at some index and phone-regex state. -/
theorem addrScoredGo_mem (li idx : Nat) (lines : List LineItem)
    (e : String × ℚ) (he : e ∈ (addrScoredGo li idx lines).1) :
    ∃ l ∈ lines, e.1 = l.text ∧
      ∃ idx' li', e.2 = (scoreAddressCandidate l.text idx' li').1 := by
  induction lines generalizing li idx with
  | nil => simp [addrScoredGo] at he
  | cons l ls ih =>
    simp only [addrScoredGo, List.mem_cons] at he
    rcases he with he | he
    · refine ⟨l, List.mem_cons_self _ _, ?_, idx, li, ?_⟩
      · rw [he]
      · rw [he]
    · obtain ⟨l', hl', h1, idx', li', h2⟩ := ih _ _ he
      exact ⟨l', List.mem_cons_of_mem _ hl', h1, idx', li', h2⟩

/-- Conversely, every line contributes a scored entry. -/
theorem addrScoredGo_of_line (li idx : Nat) (lines : List LineItem)
    (l : LineItem) (hl : l ∈ lines) :
    ∃ e ∈ (addrScoredGo li idx lines).1, e.1 = l.text ∧
      ∃ idx' li', e.2 = (scoreAddressCandidate l.text idx' li').1 := by
  induction lines generalizing li idx with
  | nil => cases hl
  | cons x xs ih =>
    rcases List.mem_cons.mp hl with rfl | hl'
    · exact ⟨(l.text, (scoreAddressCandidate l.text idx li).1),
        List.mem_cons_self _ _, rfl, idx, li, rfl⟩
    · obtain ⟨e, he, h1, idx', li', h2⟩ :=
        ih (scoreAddressCandidate x.text idx li).2 (idx + 1) hl'
      exact ⟨e, List.mem_cons_of_mem _ he, h1, idx', li', h2⟩

/-- A line whose trimmed text matches the offer-language blocklist scores
exactly −999 (and an all-whitespace line does too). -/
theorem scoreAddressCandidate_bad (line : String) (idx li : Nat)
    (h : addressBad (jsTrim line) = true) :
    (scoreAddressCandidate line idx li).1 = -999 := by
  unfold scoreAddressCandidate
  by_cases he : (jsTrim line).data.isEmpty
  · simp [he]
  · simp [he, h]

/-- A trimmed, non-empty, non-blocklisted line scores at least −1/2:
all score components are non-negative except the length penalty. -/
theorem scoreAddressCandidate_lb (line : String) (idx li : Nat)
    (htrim : jsTrim line = line) (hne : line ≠ "")
    (hbad : addressBad line = false) :
    -(1/2 : ℚ) ≤ (scoreAddressCandidate line idx li).1 := by
  unfold scoreAddressCandidate
  rw [htrim]
  have hdata : ¬ line.data.isEmpty := by
    intro hc
    apply hne
    cases line with
    | mk data =>
      cases data with
      | nil => rfl
      | cons a b => simp [List.isEmpty] at hc
  simp only [hdata, hbad, if_false, Bool.false_eq_true]
  have h1 : (0:ℚ) ≤ (if hasStreetToken line.data then (5:ℚ)/2 else 0) := by
    split <;> norm_num
  have h2 : (0:ℚ) ≤ (if zipTest line.data then (3:ℚ)/2 else 0) := by
    split <;> norm_num
  have h3 : (0:ℚ) ≤ (if (phoneTest li line).1 then (3:ℚ)/5 else 0) := by
    split <;> norm_num
  have h4 : (0:ℚ) ≤ (if line.data.any isDigit then (2:ℚ)/5 else 0) := by
    split <;> norm_num
  have h5 : (0:ℚ) ≤ max 0 ((4:ℚ)/5 - (idx : ℚ) * (1/20)) := le_max_left _ _
  have h6 : -(1/2 : ℚ) ≤
      (if line.data.length < 8 || 90 < line.data.length then -((1:ℚ)/2) else 0) := by
    split <;> norm_num
  linarith

/-- Skipping behaviour of the geocode loop: when every candidate throws or
returns zero results, the loop leaves its state unchanged. -/
theorem geocodeLoop_all_fail (geocode : String → Option (List GeoPoint))
    (cands : List (String × ℚ)) (st : ℚ × Option (String × GeoPoint))
    (h : ∀ c ∈ cands, geocode c.1 = none ∨ geocode c.1 = some []) :
    geocodeLoop geocode cands st = st := by
  induction cands generalizing st with
  | nil => rfl
  | cons c cs ih =>
    have hc := h c (List.mem_cons_self _ _)
    have hrest : ∀ x ∈ cs, geocode x.1 = none ∨ geocode x.1 = some [] :=
      fun x hx => h x (List.mem_cons_of_mem _ hx)
    unfold geocodeLoop
    rcases hc with hc | hc <;> rw [hc] <;> exact ih _ hrest

/-- Projection of the extractor result: the address is the geocode winner
or, failing that, the top-ranked heuristic candidate. -/
theorem extract_address_eq (li : Nat) (blocks : Option (List OcrLineBlock))
    (allText : String) (brands : List String) (tryGeocode : Bool)
    (geocode : String → Option (List GeoPoint)) :
    (extractStoreAndAddressFromBlocks li blocks allText brands tryGeocode
      geocode).address =
      (match (if tryGeocode && ¬ (addressCandidatesOf li blocks allText).isEmpty
        then geocodeLoop geocode (addressCandidatesOf li blocks allText) (-999, none)
        else (-999, none)).2 with
       | some p => some p.1
       | none => ((addressCandidatesOf li blocks allText).head?).map Prod.fst) := rfl

theorem extract_geo_eq (li : Nat) (blocks : Option (List OcrLineBlock))
    (allText : String) (brands : List String) (tryGeocode : Bool)
    (geocode : String → Option (List GeoPoint)) :
    (extractStoreAndAddressFromBlocks li blocks allText brands tryGeocode
      geocode).geo =
      ((if tryGeocode && ¬ (addressCandidatesOf li blocks allText).isEmpty
        then geocodeLoop geocode (addressCandidatesOf li blocks allText) (-999, none)
        else (-999, none)).2).map Prod.snd := rfl

theorem head?_take (n : Nat) (hn : 0 < n) {α : Type} (l : List α) :
    (l.take n).head? = l.head? := by
  cases l with
  | nil => simp
  | cons x xs =>
    cases n with
    | zero => omega
    | succ m => rfl

/-- Under geocoding disabled or all candidates failing, the address is the
head of the ranked candidate list and no geo point is produced. -/
theorem extract_address_fallback (li : Nat)
    (blocks : Option (List OcrLineBlock)) (allText : String)
    (brands : List String) (tryGeocode : Bool)
    (geocode : String → Option (List GeoPoint))
    (h : tryGeocode = false ∨
      ∀ c ∈ addressCandidatesOf li blocks allText,
        geocode c.1 = none ∨ geocode c.1 = some []) :
    (extractStoreAndAddressFromBlocks li blocks allText brands tryGeocode
        geocode).address =
      ((addressCandidatesOf li blocks allText).head?).map Prod.fst ∧
    (extractStoreAndAddressFromBlocks li blocks allText brands tryGeocode
        geocode).geo = none := by
  have hbest : (if tryGeocode && ¬ (addressCandidatesOf li blocks allText).isEmpty
      then geocodeLoop geocode (addressCandidatesOf li blocks allText) (-999, none)
      else ((-999 : ℚ), (none : Option (String × GeoPoint)))).2 = none := by
    rcases h with h | h
    · rw [h]
      simp
    · by_cases hc : tryGeocode && ¬ (addressCandidatesOf li blocks allText).isEmpty
      · rw [if_pos hc, geocodeLoop_all_fail _ _ _ h]
      · rw [if_neg hc]
  constructor
  · rw [extract_address_eq]
    rw [hbest]
  · rw [extract_geo_eq, hbest]
    rfl


/-! ## Claim theorems -/

theorem pick_fold_eq (l : List Nat) (acc : Option Nat) :
    l.foldl (fun best v => if 5 ≤ v && v ≤ 100 then
        some (match best with | none => v | some b => max b v)
      else best) acc =
    combineMax acc (listMaxNat (l.filter (fun v => 5 ≤ v && v ≤ 100))) := by
  induction l generalizing acc with
  | nil => cases acc <;> rfl
  | cons v t ih =>
    by_cases hp : (5 ≤ v && v ≤ 100) = true
    · rw [List.foldl_cons, ih]
      simp only [hp, if_true]
      cases acc with
      | none =>
        cases hM : listMaxNat (t.filter (fun v => 5 ≤ v && v ≤ 100)) with
        | none => simp [List.filter_cons, hp, combineMax, listMaxNat, hM]
        | some m => simp [List.filter_cons, hp, combineMax, listMaxNat, hM]
      | some a =>
        cases hM : listMaxNat (t.filter (fun v => 5 ≤ v && v ≤ 100)) with
        | none => simp [List.filter_cons, hp, combineMax, listMaxNat, hM]
        | some m =>
          simp [List.filter_cons, hp, combineMax, listMaxNat, hM, max_assoc]
    · rw [List.foldl_cons, ih]
      simp [List.filter_cons, hp]

/-- C5: for every text, `pickBestPercent` returns the maximum captured
value of `/(\d{1,3})\s*%/g` lying in `[5, 100]`, and `none` when no value
does; "Save 15% or up to 40% off select items" titles as "40% off" and
"Rated 1% of customers complain" yields no title. -/
theorem c5_percent_max :
    (∀ text : String, pickBestPercent text =
      listMaxNat ((percentValues text).filter (fun v => 5 ≤ v && v ≤ 100))) ∧
    deriveTitle "Save 15% or up to 40% off select items" = some "40% off" ∧
    deriveTitle "Rated 1% of customers complain" = none := by
  refine ⟨?_, by decide, by decide⟩
  intro text
  unfold pickBestPercent
  rw [pick_fold_eq]
  rfl

/-- C9: with bounding-box coordinates normalized to `[0, 1]` (as the Apple
Vision OCR module emits them), the store-name scorer of geo.ts can never
award its `+0.2` centering bonus (it requires a pixel-scale
`centerX ∈ (140, 260)`), and its height bonus `min(1, h/100)` is at most
`1/100` — the claimed `+1.0` cap is unreachable; only the top-of-image
bonus behaves as described (`1.2` at `y = 0`). -/
theorem c9_bbox_bonuses (x w h : ℚ)
    (hx0 : 0 ≤ x) (hx1 : x ≤ 1) (hw0 : 0 ≤ w) (hw1 : w ≤ 1)
    (hh0 : 0 ≤ h) (hh1 : h ≤ 1) :
    centerBonus x w = 0 ∧ heightBonus h ≤ 1 / 100 ∧
    heightBonus 1 = 1 / 100 ∧ topBonus 0 = 6 / 5 := by
  refine ⟨?_, ?_, ?_, ?_⟩
  · have hno : ¬ (|x + w / 2 - 200| < 60) := by
      have hlt : x + w / 2 - 200 < 0 := by linarith
      rw [abs_of_neg hlt]
      intro hcon
      linarith
    simp only [centerBonus]
    rw [if_neg hno]
  · have h2 : h / 100 ≤ 1 / 100 := by linarith
    exact le_trans (min_le_right _ _) h2
  · simp only [heightBonus]
    norm_num
  · simp only [topBonus]
    norm_num

theorem c9_bbox_bonuses_witness :
    centerBonus (2/5) (1/5) = 0 ∧ heightBonus 1 ≤ 1 / 100 ∧
    heightBonus 1 = 1 / 100 ∧ topBonus 0 = 6 / 5 :=
  c9_bbox_bonuses (2/5) (1/5) 1 (by norm_num) (by norm_num) (by norm_num)
    (by norm_num) (by norm_num) (by norm_num)

/-- C4: in `numericToISO`, when the first field is not a valid month
(1–12) or the second not a valid day (1–31), the two fields are swapped —
the date is built with month taken from the second field and day from the
first; in particular "13/05/2026" resolves to "2026-05-13". -/
theorem c4_numeric_swap :
    (∀ (pa pb pc : List Char) (a b y : Int),
      jsNumOfDigits pa = some a → jsNumOfDigits pb = some b →
      jsNumOfDigits pc = some y →
      ¬ (1 ≤ a ∧ a ≤ 12 ∧ 1 ≤ b ∧ b ≤ 31) →
      numericCore (some pa) (some pb) (some pc) =
        some (toISODateOnly
          (jsMakeDate (if y < 100 then y + 2000 else y) (b - 1) a))) ∧
    detectExpiryISO "13/05/2026" = some "2026-05-13" := by
  refine ⟨?_, by decide⟩
  intro pa pb pc a b y ha hb hy hnv
  have hok : (decide (1 ≤ a) && decide (a ≤ 12) && decide (1 ≤ b) &&
      decide (b ≤ 31)) = false := by
    by_contra hcon
    rw [Bool.not_eq_false] at hcon
    simp only [Bool.and_eq_true, decide_eq_true_eq] at hcon
    exact hnv ⟨hcon.1.1.1, hcon.1.1.2, hcon.1.2, hcon.2⟩
  simp only [numericCore, ha, hb, hy, hok, Bool.false_eq_true, if_false]

theorem c4_numeric_swap_witness :
    numericCore (some "13".data) (some "05".data) (some "2026".data) =
      some (toISODateOnly
        (jsMakeDate (if (2026 : Int) < 100 then 2026 + 2000 else 2026)
          (5 - 1) 13)) ∧
    detectExpiryISO "13/05/2026" = some "2026-05-13" :=
  ⟨c4_numeric_swap.1 "13".data "05".data "2026".data 13 5 2026
    (by decide) (by decide) (by decide) (by decide),
   c4_numeric_swap.2⟩

/-- C6 counterexample: a two-decimal amount with zero cents is NOT
preserved as given — `parseFloat("5.00")` is the float `5`, so the title is
"$5 off", not "$5.00 off". -/
theorem c6_counterexample :
    deriveTitle "Get $5.00 off your purchase" = some "$5 off" ∧
    ("$5 off" : String) ≠ "$5.00 off" := ⟨by decide, by decide⟩

/-- C6 (amended): the discount title follows the strict priority
percent, then amount, then (for `parseCouponBasics`) BOGO, with exactly one
of them contributing; amounts are rendered as JavaScript numbers, so
trailing zero cents are dropped while non-zero cents are kept
("$5.99" stays "$5.99 off"). -/
theorem c6_title_priority :
    (∀ (text : String) (p : Nat), pickBestPercent text = some p →
      deriveTitle text = some (toString p ++ "% off")) ∧
    (∀ (text : String) (a : Nat), pickBestPercent text = none →
      pickBestAmount text = some a →
      deriveTitle text = some ("$" ++ jsNumToString a ++ " off")) ∧
    (∀ text : String, pickBestPercent text = none →
      pickBestAmount text = none → deriveTitle text = none) ∧
    (∀ (raw : String) (p : Nat),
      pickBestPercent (basicsNormText raw) = some p →
      (parseCouponBasics raw).discount_kind = some "percent" ∧
      (parseCouponBasics raw).discount_value = some (p : ℚ)) ∧
    (∀ (raw : String) (a : Nat),
      pickBestPercent (basicsNormText raw) = none →
      pickBestAmount (basicsNormText raw) = some a →
      (parseCouponBasics raw).discount_kind = some "amount" ∧
      (parseCouponBasics raw).discount_value = some ((a : ℚ) / 100)) ∧
    (∀ raw : String, pickBestPercent (basicsNormText raw) = none →
      pickBestAmount (basicsNormText raw) = none →
      bogoTest (basicsNormText raw) = true →
      (parseCouponBasics raw).discount_kind = some "bogo" ∧
      (parseCouponBasics raw).discount_value = none) ∧
    deriveTitle "Take $5.99 off today" = some "$5.99 off" ∧
    (parseCouponBasics "50% off BOGO buy 1 get 1").discount_kind =
      some "percent" := by
  refine ⟨?_, ?_, ?_, ?_, ?_, ?_, by decide, by decide⟩
  · intro text p h
    simp only [deriveTitle, h]
  · intro text a h1 h2
    simp only [deriveTitle, h1, h2]
  · intro text h1 h2
    simp only [deriveTitle, h1, h2]
  · intro raw p h
    constructor <;> simp only [parseCouponBasics, h]
  · intro raw a h1 h2
    constructor <;> simp only [parseCouponBasics, h1, h2]
  · intro raw h1 h2 h3
    constructor <;> simp only [parseCouponBasics, h1, h2, h3, if_true]

theorem c6_title_priority_witness :
    deriveTitle "Save 40% today" = some (toString 40 ++ "% off") ∧
    deriveTitle "Get $5.00 off your purchase" =
      some ("$" ++ jsNumToString 500 ++ " off") ∧
    deriveTitle "nothing here" = none ∧
    ((parseCouponBasics "50% off").discount_kind = some "percent" ∧
      (parseCouponBasics "50% off").discount_value = some ((50 : Nat) : ℚ)) ∧
    ((parseCouponBasics "$5.99 off").discount_kind = some "amount" ∧
      (parseCouponBasics "$5.99 off").discount_value =
        some (((599 : Nat) : ℚ) / 100)) ∧
    ((parseCouponBasics "BOGO week").discount_kind = some "bogo" ∧
      (parseCouponBasics "BOGO week").discount_value = none) :=
  ⟨c6_title_priority.1 _ 40 (by decide),
   c6_title_priority.2.1 _ 500 (by decide) (by decide),
   c6_title_priority.2.2.1 _ (by decide) (by decide),
   c6_title_priority.2.2.2.1 _ 50 (by decide),
   c6_title_priority.2.2.2.2.1 _ 599 (by decide) (by decide),
   c6_title_priority.2.2.2.2.2.1 _ (by decide) (by decide) (by decide)⟩

/-- C1: `extractCouponFields` is a total function whose `mode` field is
always one of the three literals, and on the empty string every field is
null or empty (`terms` is the empty string, `mode` the empty literal,
everything else null). -/
theorem c1_wellformed :
    (∀ (li : Nat) (text : String),
      (extractCouponFields li text).mode = "" ∨
      (extractCouponFields li text).mode = "dine-in" ∨
      (extractCouponFields li text).mode = "pickup") ∧
    extractCouponFields 0 "" =
      { store := none, address := none, phone := none, mode := "",
        location_note := none, terms := some "", title := none,
        expires_at := none } := by
  constructor
  · intro li text
    have hmode : (extractCouponFields li text).mode = detectMode text := rfl
    rw [hmode]
    unfold detectMode
    cases h : scanBFirst modeAltAt false text.data with
    | none => exact Or.inl rfl
    | some p =>
      by_cases hc : containsL (lowerL (p.1.take p.2)) "dine".data
      · exact Or.inr (Or.inl (by simp [hc]))
      · exact Or.inr (Or.inr (by simp [hc]))
  · decide

theorem daysInMonth_pos (y : Int) (m : Nat) : 1 ≤ daysInMonth y m := by
  unfold daysInMonth
  split_ifs <;> norm_num

theorem daysInMonth_le31 (y : Int) (m : Nat) : daysInMonth y m ≤ 31 := by
  unfold daysInMonth
  split_ifs <;> norm_num

theorem incDay_wf (x : Ymd) (h : x.wf) : (incDay x).wf := by
  obtain ⟨h1, h2, h3, h4⟩ := h
  unfold incDay
  split_ifs with ha hb <;> dsimp only [Ymd.wf]
  · exact ⟨h1, h2, by omega, by omega⟩
  · exact ⟨by omega, by omega, le_refl 1, daysInMonth_pos _ _⟩
  · exact ⟨by omega, by omega, le_refl 1, daysInMonth_pos _ _⟩

theorem decDay_wf (x : Ymd) (h : x.wf) : (decDay x).wf := by
  obtain ⟨h1, h2, h3, h4⟩ := h
  unfold decDay
  split_ifs with ha hb <;> dsimp only [Ymd.wf]
  · exact ⟨h1, h2, by omega, by omega⟩
  · exact ⟨by omega, by omega, daysInMonth_pos _ _, le_refl _⟩
  · exact ⟨by omega, by omega, by omega, by simp [daysInMonth]⟩

theorem addDaysN_wf (n : Nat) (x : Ymd) (h : x.wf) : (addDaysN n x).wf := by
  induction n generalizing x with
  | zero => exact h
  | succ m ih => exact ih _ (incDay_wf x h)

theorem decDaysN_wf (n : Nat) (x : Ymd) (h : x.wf) : (decDaysN n x).wf := by
  induction n generalizing x with
  | zero => exact h
  | succ m ih => exact ih _ (decDay_wf x h)

theorem jsMakeDate_wf (y m0 d : Int) : (jsMakeDate y m0 d).wf := by
  have hbase : (Ymd.mk (y + m0.fdiv 12) ((m0.emod 12).toNat + 1) 1).wf := by
    have h0 : 0 ≤ m0.emod 12 := Int.emod_nonneg m0 (by norm_num)
    have h12 : m0.emod 12 < 12 := Int.emod_lt_of_pos m0 (by norm_num)
    have ht : (m0.emod 12).toNat < 12 := by omega
    exact ⟨by dsimp only; omega, by dsimp only; omega, le_refl 1,
      daysInMonth_pos _ _⟩
  unfold jsMakeDate
  split_ifs with hd
  · exact addDaysN_wf _ _ hbase
  · exact decDaysN_wf _ _ hbase

/-- Every `Ymd` a claim mentions satisfies `day ≤ 31`. -/
theorem Ymd.wf_day_le31 (x : Ymd) (h : x.wf) : x.day ≤ 31 :=
  le_trans h.2.2.2 (daysInMonth_le31 _ _)

/-- Shape of the final step shared by `numericCore`. -/
theorem matchIso_shape (u v w : Option Int) :
    (match u, v, w with
     | some mm, some dd, some yraw =>
       let yy := if yraw < 100 then yraw + 2000 else yraw
       some (toISODateOnly (jsMakeDate yy (mm - 1) dd))
     | _, _, _ => (none : Option String)) = none ∨
    ∃ x : Ymd, x.wf ∧
      (match u, v, w with
       | some mm, some dd, some yraw =>
         let yy := if yraw < 100 then yraw + 2000 else yraw
         some (toISODateOnly (jsMakeDate yy (mm - 1) dd))
       | _, _, _ => (none : Option String)) = some (toISODateOnly x) := by
  cases u with
  | none => left; rfl
  | some mm =>
    cases v with
    | none => left; rfl
    | some dd =>
      cases w with
      | none => left; rfl
      | some yraw =>
        right
        exact ⟨jsMakeDate (if yraw < 100 then yraw + 2000 else yraw)
          (mm - 1) dd, jsMakeDate_wf _ _ _, rfl⟩

/-- `numericCore` yields nothing or the ISO rendering of a well-formed
civil date. -/
theorem numericCore_shape (pa pb pc : Option (List Char)) :
    numericCore pa pb pc = none ∨
    ∃ x : Ymd, x.wf ∧ numericCore pa pb pc = some (toISODateOnly x) := by
  unfold numericCore
  exact matchIso_shape _ _ _

/-- Shape of the final step of `toISO`. -/
theorem toISOcore_shape (core : Option (Nat × Nat × Int)) :
    (match core with
     | some (m, d, y) =>
       if 1 ≤ d ∧ d ≤ 31 then
         some (toISODateOnly (jsMakeDate y ((m : Int) - 1) d))
       else none
     | none => (none : Option String)) = none ∨
    ∃ x : Ymd, x.wf ∧
      (match core with
       | some (m, d, y) =>
         if 1 ≤ d ∧ d ≤ 31 then
           some (toISODateOnly (jsMakeDate y ((m : Int) - 1) d))
         else none
       | none => (none : Option String)) = some (toISODateOnly x) := by
  cases core with
  | none => left; rfl
  | some t =>
    obtain ⟨m, d, y⟩ := t
    dsimp only
    by_cases hd : 1 ≤ d ∧ d ≤ 31
    · right
      refine ⟨jsMakeDate y ((m : Int) - 1) d, jsMakeDate_wf _ _ _, ?_⟩
      rw [if_pos hd]
    · left
      rw [if_neg hd]

/-- `toISO` yields nothing or the ISO rendering of a well-formed date. -/
theorem toISO_shape (s : String) :
    toISO s = none ∨
    ∃ x : Ymd, x.wf ∧ toISO s = some (toISODateOnly x) := by
  unfold toISO
  exact toISOcore_shape _

theorem numericToISO_shape (s : String) :
    numericToISO s = none ∨
    ∃ x : Ymd, x.wf ∧ numericToISO s = some (toISODateOnly x) :=
  numericCore_shape _ _ _

set_option maxRecDepth 4000 in
/-- C3 (amended): the part_002 expiry resolver returns null or the ISO
rendering `y-mm-dd` of a well-formed calendar date (month in 1..12, day in
1..31 bounded by the month length); "Expires 12/31/26" resolves to
"2026-12-31" and "Valid until Jan 5, 2026" to "2026-01-05".  A matched
date whose day passes the syntactic range 1..31 but which denotes no real
calendar date is rolled over by `Date` arithmetic instead of yielding
null, on the month-name path just as on the numeric one: "Feb 31, 2026"
also resolves to "2026-03-03". -/
theorem c3_expiry_iso :
    (∀ text : String, detectExpiryISO text = none ∨
      ∃ x : Ymd, (1 ≤ x.month ∧ x.month ≤ 12 ∧ 1 ≤ x.day ∧ x.day ≤ 31) ∧
        detectExpiryISO text = some (toISODateOnly x)) ∧
    detectExpiryISO "Expires 12/31/26" = some "2026-12-31" ∧
    detectExpiryISO "Valid until Jan 5, 2026" = some "2026-01-05" ∧
    detectExpiryISO "Valid until Feb 31, 2026" = some "2026-03-03" := by
  refine ⟨?_, by decide, by decide, by decide⟩
  intro text
  have pack : ∀ x : Ymd, x.wf →
      1 ≤ x.month ∧ x.month ≤ 12 ∧ 1 ≤ x.day ∧ x.day ≤ 31 :=
    fun x hwf => ⟨hwf.1, hwf.2.1, hwf.2.2.1, Ymd.wf_day_le31 _ hwf⟩
  unfold detectExpiryISO
  cases hm : execFirst ocrMonthAt text.data with
  | some cap =>
    dsimp only
    rcases toISO_shape cap with h | ⟨x, hwf, h⟩
    · rw [h]
      dsimp only
      cases hn : execFirst ocrNumericAt text.data with
      | none => exact Or.inl rfl
      | some cap2 =>
        dsimp only
        rcases numericToISO_shape cap2 with h2 | ⟨x2, hwf2, h2⟩
        · rw [h2]; exact Or.inl rfl
        · rw [h2]; exact Or.inr ⟨x2, pack x2 hwf2, rfl⟩
    · rw [h]
      exact Or.inr ⟨x, pack x hwf, rfl⟩
  | none =>
    dsimp only
    cases hn : execFirst ocrNumericAt text.data with
    | none => exact Or.inl rfl
    | some cap2 =>
      dsimp only
      rcases numericToISO_shape cap2 with h2 | ⟨x2, hwf2, h2⟩
      · rw [h2]; exact Or.inl rfl
      · rw [h2]; exact Or.inr ⟨x2, pack x2 hwf2, rfl⟩

set_option maxRecDepth 4000 in
/-- C3 counterexample: "02/31/2026" passes the syntactic ranges
(month 02, day 31), but February 2026 has 28 days — no such calendar date
exists; the resolver still returns a date (rolled over to March 3) instead
of the null the claim requires. -/
theorem c3_counterexample :
    detectExpiryISO "Offer ends 02/31/2026" = some "2026-03-03" ∧
    daysInMonth 2026 2 = 28 ∧
    detectExpiryISO "Offer ends 02/31/2026" ≠ none :=
  ⟨by decide, by decide, by decide⟩

set_option maxRecDepth 8000 in
/-- C2 counterexample: when every flattened line is blocklisted, the
unconditional fallback `if (!bestAddress && addressCandidates[0])` still
returns the top −999 candidate, so the blocklisted line IS returned as the
address. -/
theorem c2_counterexample :
    addressBad "Buy One Get One Free at checkout" = true ∧
    (extractStoreAndAddressFromBlocks 0 none
        "Buy One Get One Free at checkout" [] false (fun _ => none)).address =
      some "Buy One Get One Free at checkout" := ⟨by decide, by decide⟩

set_option maxRecDepth 8000 in
/-- C2 (amended): a line matching the offer-language blocklist always
scores −999, and — when geocoding is disabled or no candidate geocodes —
such a line is never returned as the address PROVIDED at least one
non-blocklisted line exists; with only blocklisted lines the fallback
returns one of them (see the counterexample). -/
theorem c2_blocklist :
    (∀ (line : String) (idx li : Nat), addressBad (jsTrim line) = true →
      (scoreAddressCandidate line idx li).1 = -999) ∧
    (∀ (li : Nat) (blocks : Option (List OcrLineBlock)) (allText : String)
        (brands : List String) (tryG : Bool)
        (geocode : String → Option (List GeoPoint)),
      (tryG = false ∨ ∀ c ∈ addressCandidatesOf li blocks allText,
        geocode c.1 = none ∨ geocode c.1 = some []) →
      (∃ l ∈ linesOf blocks allText, addressBad l.text = false) →
      ∀ a, (extractStoreAndAddressFromBlocks li blocks allText brands tryG
        geocode).address = some a → addressBad a = false) ∧
    scoreAddressCandidate "Buy One Get One Free at checkout" 0 0 =
      (-999, 0) := by
  refine ⟨?_, ?_, by decide⟩
  · intro line idx li h
    exact scoreAddressCandidate_bad line idx li h
  · intro li blocks allText brands tryG geocode hfail hgood a ha
    obtain ⟨l, hlmem, hlgood⟩ := hgood
    rw [(extract_address_fallback li blocks allText brands tryG geocode
      hfail).1] at ha
    unfold addressCandidatesOf at ha
    rw [head?_take 6 (by norm_num)] at ha
    cases hh : (sortDesc Prod.snd
        (addrScoredGo li 0 (linesOf blocks allText)).1).head? with
    | none => rw [hh] at ha; simp at ha
    | some e =>
      rw [hh] at ha
      simp only [Option.map_some'] at ha
      have hae : a = e.1 := (Option.some.inj ha).symm
      obtain ⟨hmem, hmax⟩ := sortDesc_head_mem Prod.snd _ e hh
      obtain ⟨eg, hegmem, hegfst, idxg, lig, hegscore⟩ :=
        addrScoredGo_of_line li 0 (linesOf blocks allText) l hlmem
      obtain ⟨htr, hne⟩ := linesOf_trimmed blocks allText l hlmem
      have hlb : -(1/2 : ℚ) ≤ eg.2 := by
        rw [hegscore]
        exact scoreAddressCandidate_lb l.text idxg lig htr hne hlgood
      have he2 : -(1/2 : ℚ) ≤ e.2 := le_trans hlb (hmax eg hegmem)
      by_contra hbad
      rw [Bool.not_eq_false] at hbad
      obtain ⟨l2, hl2mem, hfst2, idx2, li2, hscore2⟩ :=
        addrScoredGo_mem li 0 (linesOf blocks allText) e hmem
      have htr2 := (linesOf_trimmed blocks allText l2 hl2mem).1
      have hbad2 : addressBad (jsTrim l2.text) = true := by
        rw [htr2, ← hfst2, ← hae]
        exact hbad
      have he999 : e.2 = -999 := by
        rw [hscore2]
        exact scoreAddressCandidate_bad l2.text idx2 li2 hbad2
      rw [he999] at he2
      norm_num at he2

theorem c2_blocklist_witness :
    addressBad (jsTrim "Buy One Get One Free at checkout") = true ∧
    (scoreAddressCandidate "Buy One Get One Free at checkout" 3 0).1 =
      -999 ∧
    ∀ a, (extractStoreAndAddressFromBlocks 0 none
        "Fresh deals inside\nBuy One Get One Free at checkout" [] false
        (fun _ => none)).address = some a → addressBad a = false :=
  ⟨by decide,
   c2_blocklist.1 "Buy One Get One Free at checkout" 3 0 (by decide),
   c2_blocklist.2.1 0 none
     "Fresh deals inside\nBuy One Get One Free at checkout" [] false
     (fun _ => none) (Or.inl rfl)
     ⟨⟨"Fresh deals inside", none⟩, by decide, by decide⟩⟩

set_option maxRecDepth 8000 in
/-- C7: the module-level `PHONE_RE` is global, so `scoreAddressCandidate`
advances its `lastIndex` via `.test`, and the later
`allText.matchAll(PHONE_RE)` starts from the stale value.  On a fresh state
the address scoring consumes "(616) 555-0198" (lastIndex 14), so the phone
extraction only sees "555-1234" and returns the 7-digit match although a
10-digit match exists in the full text — the pick a fresh scan makes. -/
theorem c7_phone_stale_state :
    (extractStoreAndAddressFromBlocks 0 none
        "(616) 555-0198 or dial 555-1234" [] false (fun _ => none)).phone =
      some "555-1234" ∧
    phoneMatchesFrom 0 "(616) 555-0198 or dial 555-1234" =
      ["(616) 555-0198", "555-1234"] ∧
    digitCount "(616) 555-0198" = 10 ∧
    digitCount "555-1234" = 7 ∧
    pickPhone 0 "(616) 555-0198 or dial 555-1234" =
      some "(616) 555-0198" :=
  ⟨by decide, by decide, by decide, by decide, by decide⟩

/-- C8: a geocode rejection or empty result never aborts the extraction —
it only removes that candidate — and when geocoding is disabled or every
candidate fails, no geo point is produced and the address falls back to
the single highest-heuristic-score candidate (the first line attaining the
maximal address score). -/
theorem c8_geocode_fallback (li : Nat) (blocks : Option (List OcrLineBlock))
    (allText : String) (brands : List String) (tryG : Bool)
    (geocode : String → Option (List GeoPoint))
    (hfail : tryG = false ∨ ∀ c ∈ addressCandidatesOf li blocks allText,
      geocode c.1 = none ∨ geocode c.1 = some []) :
    (extractStoreAndAddressFromBlocks li blocks allText brands tryG
      geocode).geo = none ∧
    (linesOf blocks allText ≠ [] →
      ∃ i, ∃ hi : i < (addrScoredOf li blocks allText).length,
        (extractStoreAndAddressFromBlocks li blocks allText brands tryG
          geocode).address =
          some ((addrScoredOf li blocks allText).get ⟨i, hi⟩).1 ∧
        (∀ j, ∀ hj : j < (addrScoredOf li blocks allText).length,
          ((addrScoredOf li blocks allText).get ⟨j, hj⟩).2 ≤
            ((addrScoredOf li blocks allText).get ⟨i, hi⟩).2) ∧
        (∀ j, ∀ hj : j < (addrScoredOf li blocks allText).length, j < i →
          ((addrScoredOf li blocks allText).get ⟨j, hj⟩).2 <
            ((addrScoredOf li blocks allText).get ⟨i, hi⟩).2)) := by
  obtain ⟨haddr, hgeo⟩ :=
    extract_address_fallback li blocks allText brands tryG geocode hfail
  refine ⟨hgeo, ?_⟩
  intro hne
  have hscne : addrScoredOf li blocks allText ≠ [] := by
    intro hc
    apply hne
    have := addrScoredGo_length li 0 (linesOf blocks allText)
    unfold addrScoredOf at hc
    rw [hc] at this
    simp at this
    cases hcase : linesOf blocks allText with
    | nil => rfl
    | cons x xs => rw [hcase] at this; simp at this
  obtain ⟨i, hi, hhead, hmax, hstrict⟩ :=
    sortDesc_head (Prod.snd) (addrScoredOf li blocks allText) hscne
  refine ⟨i, hi, ?_, hmax, hstrict⟩
  rw [haddr]
  unfold addressCandidatesOf
  rw [head?_take 6 (by norm_num)]
  have : (sortDesc Prod.snd (addrScoredGo li 0 (linesOf blocks allText)).1) =
      sortDesc Prod.snd (addrScoredOf li blocks allText) := rfl
  rw [this, hhead]
  rfl

set_option maxRecDepth 8000 in
theorem c8_geocode_fallback_witness :
    (extractStoreAndAddressFromBlocks 0 none
        "PIZZA PALACE\n123 Main St 49503\n50% off today" [] true
        (fun _ => none)).geo = none ∧
    (∃ i, ∃ hi : i < (addrScoredOf 0 none
        "PIZZA PALACE\n123 Main St 49503\n50% off today").length,
      (extractStoreAndAddressFromBlocks 0 none
          "PIZZA PALACE\n123 Main St 49503\n50% off today" [] true
          (fun _ => none)).address =
        some ((addrScoredOf 0 none
          "PIZZA PALACE\n123 Main St 49503\n50% off today").get ⟨i, hi⟩).1 ∧
      (∀ j, ∀ hj : j < (addrScoredOf 0 none
          "PIZZA PALACE\n123 Main St 49503\n50% off today").length,
        ((addrScoredOf 0 none
          "PIZZA PALACE\n123 Main St 49503\n50% off today").get ⟨j, hj⟩).2 ≤
          ((addrScoredOf 0 none
            "PIZZA PALACE\n123 Main St 49503\n50% off today").get ⟨i, hi⟩).2) ∧
      (∀ j, ∀ hj : j < (addrScoredOf 0 none
          "PIZZA PALACE\n123 Main St 49503\n50% off today").length, j < i →
        ((addrScoredOf 0 none
          "PIZZA PALACE\n123 Main St 49503\n50% off today").get ⟨j, hj⟩).2 <
          ((addrScoredOf 0 none
            "PIZZA PALACE\n123 Main St 49503\n50% off today").get ⟨i, hi⟩).2)) :=
  ⟨(c8_geocode_fallback 0 none
      "PIZZA PALACE\n123 Main St 49503\n50% off today" [] true
      (fun _ => none) (Or.inr (fun c _ => Or.inl rfl))).1,
   (c8_geocode_fallback 0 none
      "PIZZA PALACE\n123 Main St 49503\n50% off today" [] true
      (fun _ => none) (Or.inr (fun c _ => Or.inl rfl))).2 (by decide)⟩

/-- C10 (implicit): whenever the input flattens to at least one non-empty
line and geocoding is disabled or yields nothing, the returned address is
unconditionally the text of one of the flattened lines — even when every
line was hard-excluded with score −999. -/
theorem c10_fallback_nonnull (li : Nat) (blocks : Option (List OcrLineBlock))
    (allText : String) (brands : List String) (tryG : Bool)
    (geocode : String → Option (List GeoPoint))
    (hlines : linesOf blocks allText ≠ [])
    (hfail : tryG = false ∨ ∀ c ∈ addressCandidatesOf li blocks allText,
      geocode c.1 = none ∨ geocode c.1 = some []) :
    ∃ l ∈ linesOf blocks allText,
      (extractStoreAndAddressFromBlocks li blocks allText brands tryG
        geocode).address = some l.text := by
  obtain ⟨haddr, _⟩ :=
    extract_address_fallback li blocks allText brands tryG geocode hfail
  have hscne : (addrScoredGo li 0 (linesOf blocks allText)).1 ≠ [] := by
    intro hc
    apply hlines
    have := addrScoredGo_length li 0 (linesOf blocks allText)
    rw [hc] at this
    cases hcase : linesOf blocks allText with
    | nil => rfl
    | cons x xs => rw [hcase] at this; simp at this
  obtain ⟨i, hi, hhead, _, _⟩ := sortDesc_head Prod.snd _ hscne
  obtain ⟨hmem, _⟩ := sortDesc_head_mem Prod.snd _ _ hhead
  obtain ⟨l, hlmem, hfst, _, _, _⟩ :=
    addrScoredGo_mem li 0 (linesOf blocks allText) _ hmem
  refine ⟨l, hlmem, ?_⟩
  rw [haddr]
  unfold addressCandidatesOf
  rw [head?_take 6 (by norm_num), hhead]
  simp only [Option.map_some']
  rw [hfst]

set_option maxRecDepth 8000 in
theorem c10_fallback_nonnull_witness :
    addressBad "Save 50% now" = true ∧
    addressBad "Free coupon offer" = true ∧
    (∃ l ∈ linesOf none "Save 50% now\nFree coupon offer",
      (extractStoreAndAddressFromBlocks 0 none
        "Save 50% now\nFree coupon offer" [] false
        (fun _ => none)).address = some l.text) ∧
    (extractStoreAndAddressFromBlocks 0 none
        "Save 50% now\nFree coupon offer" [] false
        (fun _ => none)).address = some "Save 50% now" :=
  ⟨by decide, by decide,
   c10_fallback_nonnull 0 none "Save 50% now\nFree coupon offer" [] false
     (fun _ => none) (by decide) (Or.inl rfl),
   by decide⟩

end Snapigo
